import Mathlib

/-!
# MultiBound2 main window: instance registry and workshop synchronisation

A shallow embedding of `src/multibound2/mainwindow.cpp`.

* Qt strings are Lean strings, `QString::isEmpty` is comparison with `""`.
* `std::vector<std::shared_ptr<Instance>> instances` is a list; a raw
  `Instance*` taken from it is the index of the element, `nullptr` is `none`.
  Dereferencing an index that is out of range (a dangling pointer) has no
  defined behaviour in C++, the operations return `none` there.
* Code that is not part of `mainwindow.cpp` (`Config`, `Util`, the bodies of
  `Instance`, the file system, the user answering a dialog) is a parameter:
  the fields of `Env` and the reply arguments of the operations.
* Every call that leaves `mainwindow.cpp` and every call of `refresh` is
  appended to a log together with the enabled and visible flags of the window
  at that moment.
-/

namespace MultiBound

/-! ## JSON values and `QJsonDocument::fromJson`

`newFromWorkshop` builds the configuration of its draft by parsing a text, so
the parser of Qt is modelled: a scanner over the characters and a parser over
the tokens, for the grammar of RFC 8259. As the parser of Qt does, the scanner
takes a raw control character inside a string as it is, and a backslash
before a character that starts no escape as that character. A number keeps
its lexeme, and a `\u` escape is decoded by `Char.ofNat`. -/

/-- A JSON value as held by `QJsonValue`; a number keeps its lexeme. -/
inductive Json where
  | null
  | bool (b : Bool)
  | num (lexeme : String)
  | str (s : String)
  | arr (items : List Json)
  | obj (members : List (String × Json))

/-- The members of a JSON object, `QJsonObject`; document order is kept. -/
abbrev JsonObject := List (String × Json)

/-- Lexical tokens of a JSON text. -/
inductive Token where
  | lbrace | rbrace | lbracket | rbracket | colon | comma
  | str (s : String)
  | num (lexeme : String)
  | word (w : String)

/-- Scanner state: between tokens, inside a string, after a backslash, inside
the four hex digits of a `\u` escape, inside a number, inside a bare word. -/
inductive LexMode where
  | top
  | str (acc : List Char)
  | esc (acc : List Char)
  | uni (acc : List Char) (digits : List Nat)
  | num (acc : List Char)
  | word (acc : List Char)

/-- Value of a hexadecimal digit. -/
def hexVal (c : Char) : Option Nat :=
  if '0' ≤ c ∧ c ≤ '9' then some (c.toNat - '0'.toNat)
  else if 'a' ≤ c ∧ c ≤ 'f' then some (c.toNat - 'a'.toNat + 10)
  else if 'A' ≤ c ∧ c ≤ 'F' then some (c.toNat - 'A'.toNat + 10)
  else none

/-- Characters that may continue a number lexeme. -/
def isNumChar (c : Char) : Bool :=
  c.isDigit || c == '-' || c == '+' || c == '.' || c == 'e' || c == 'E'

/-- One or more digits, then the rest. -/
def takeDigits : List Char → List Char × List Char
  | [] => ([], [])
  | c :: cs => if c.isDigit then (c :: (takeDigits cs).1, (takeDigits cs).2) else ([], c :: cs)

/-- The JSON number grammar: `-? (0 | [1-9][0-9]*) (. [0-9]+)? ([eE] [+-]? [0-9]+)?`. -/
def validNumber (cs : List Char) : Bool :=
  let cs1 := match cs with | '-' :: r => r | r => r
  let afterInt : Option (List Char) :=
    match cs1 with
    | '0' :: r => some r
    | c :: r => if c.isDigit then some (takeDigits r).2 else none
    | [] => none
  match afterInt with
  | none => false
  | some r =>
    let afterFrac : Option (List Char) :=
      match r with
      | '.' :: r1 => if (takeDigits r1).1.isEmpty then none else some (takeDigits r1).2
      | r1 => some r1
    match afterFrac with
    | none => false
    | some r2 =>
      match r2 with
      | [] => true
      | e :: r3 =>
        if e == 'e' || e == 'E' then
          let r4 := match r3 with
            | '+' :: r => r
            | '-' :: r => r
            | r => r
          !(takeDigits r4).1.isEmpty && (takeDigits r4).2.isEmpty
        else false

/-- A character read between tokens. -/
def lexTop (c : Char) : Option (LexMode × List Token) :=
  if c == ' ' || c == '\t' || c == '\n' || c == '\r' then some (.top, [])
  else if c == '{' then some (.top, [.lbrace])
  else if c == '}' then some (.top, [.rbrace])
  else if c == '[' then some (.top, [.lbracket])
  else if c == ']' then some (.top, [.rbracket])
  else if c == ':' then some (.top, [.colon])
  else if c == ',' then some (.top, [.comma])
  else if c == '"' then some (.str [], [])
  else if c.isDigit || c == '-' then some (.num [c], [])
  else if c.isAlpha then some (.word [c], [])
  else none

/-- The token that ends a number lexeme, if the lexeme is a number. -/
def closeNum (acc : List Char) : Option Token :=
  if validNumber acc then some (.num (String.mk acc)) else none

/-- One character of input. -/
def lexStep : LexMode → Char → Option (LexMode × List Token)
  | .top, c => lexTop c
  | .str acc, c =>
    if c == '"' then some (.top, [.str (String.mk acc)])
    else if c == '\\' then some (.esc acc, [])
    else some (.str (acc ++ [c]), [])
  | .esc acc, c =>
    if c == '"' then some (.str (acc ++ ['"']), [])
    else if c == '\\' then some (.str (acc ++ ['\\']), [])
    else if c == '/' then some (.str (acc ++ ['/']), [])
    else if c == 'b' then some (.str (acc ++ [Char.ofNat 8]), [])
    else if c == 'f' then some (.str (acc ++ [Char.ofNat 12]), [])
    else if c == 'n' then some (.str (acc ++ ['\n']), [])
    else if c == 'r' then some (.str (acc ++ ['\r']), [])
    else if c == 't' then some (.str (acc ++ ['\t']), [])
    else if c == 'u' then some (.uni acc [], [])
    else some (.str (acc ++ [c]), [])
  | .uni acc ds, c =>
    match hexVal c with
    | none => none
    | some d =>
      if ds.length = 3 then
        some (.str (acc ++ [Char.ofNat ((ds ++ [d]).foldl (fun v x => 16 * v + x) 0)]), [])
      else some (.uni acc (ds ++ [d]), [])
  | .num acc, c =>
    if isNumChar c then some (.num (acc ++ [c]), [])
    else
      match closeNum acc, lexTop c with
      | some t, some (m, ts) => some (m, t :: ts)
      | _, _ => none
  | .word acc, c =>
    if c.isAlpha then some (.word (acc ++ [c]), [])
    else
      match lexTop c with
      | some (m, ts) => some (m, .word (String.mk acc) :: ts)
      | none => none

/-- The scanner: the tokens of a text, `none` for a lexical error. -/
def lexRun : LexMode → List Char → Option (List Token)
  | .top, [] => some []
  | .num acc, [] => (closeNum acc).map fun t => [t]
  | .word acc, [] => some [.word (String.mk acc)]
  | _, [] => none
  | m, c :: cs =>
    match lexStep m c with
    | none => none
    | some (m', ts) => (lexRun m' cs).map fun rest => ts ++ rest

/-- Qt's `QJsonObject::insert`: the value of an existing key is replaced. -/
def insertMember (o : JsonObject) (k : String) (v : Json) : JsonObject :=
  if o.any (fun kv => kv.1 == k) then o.map (fun kv => if kv.1 == k then (k, v) else kv)
  else o ++ [(k, v)]

mutual
/-- A value, and the tokens after it. The first argument bounds the depth of
the recursion; the number of tokens plus one is always enough. -/
def parseValue : Nat → List Token → Option (Json × List Token)
  | 0, _ => none
  | _ + 1, .str s :: r => some (.str s, r)
  | _ + 1, .num n :: r => some (.num n, r)
  | _ + 1, .word w :: r =>
    if w = "true" then some (.bool true, r)
    else if w = "false" then some (.bool false, r)
    else if w = "null" then some (.null, r)
    else none
  | _ + 1, .lbracket :: .rbracket :: r => some (.arr [], r)
  | f + 1, .lbracket :: r => parseElements f r []
  | _ + 1, .lbrace :: .rbrace :: r => some (.obj [], r)
  | f + 1, .lbrace :: r => parseMembers f r []
  | _ + 1, _ => none
/-- The elements of an array after `[`, up to and including `]`. -/
def parseElements : Nat → List Token → List Json → Option (Json × List Token)
  | 0, _, _ => none
  | f + 1, toks, acc =>
    match parseValue f toks with
    | some (v, .comma :: r) => parseElements f r (acc ++ [v])
    | some (v, .rbracket :: r) => some (.arr (acc ++ [v]), r)
    | _ => none
/-- The members of an object after `{`, up to and including `}`. -/
def parseMembers : Nat → List Token → JsonObject → Option (Json × List Token)
  | 0, _, _ => none
  | f + 1, .str k :: .colon :: r, acc =>
    match parseValue f r with
    | some (v, .comma :: r1) => parseMembers f r1 (insertMember acc k v)
    | some (v, .rbrace :: r1) => some (.obj (insertMember acc k v), r1)
    | _ => none
  | _ + 1, _, _ => none
end

/-- The document of a text, `QJsonDocument::fromJson`: an object or an array
that spans the whole text; anything else is the null document. -/
def fromJson (text : String) : Option Json :=
  match lexRun .top text.data with
  | none => none
  | some toks =>
    match parseValue (toks.length + 1) toks with
    | some (.obj o, []) => some (.obj o)
    | some (.arr a, []) => some (.arr a)
    | _ => none

/-- The object of a document, `QJsonDocument::object`: empty unless the
document is an object. -/
def documentObject : Option Json → JsonObject
  | some (.obj o) => o
  | _ => []

/-- Value of a key, `QJsonObject::operator[]`. -/
def JsonObject.get (o : JsonObject) (k : String) : Option Json :=
  (o.find? (fun kv => kv.1 == k)).map Prod.snd

/-! ## Instances and what the main window is given from outside -/

/-- An instance, `MultiBound::Instance`: its directory and its configuration. -/
structure Instance where
  path : String
  json : JsonObject

/-- A default-constructed instance, `std::make_shared<Instance>()`. -/
def Instance.fresh : Instance := { path := "", json := [] }

/-- Modelled from the spec: `Instance::workshopId` is declared in
`data/instance.h`, which is not part of the sources; the identifier is the
string at `info.workshopId` of the configuration, empty when absent. -/
def Instance.workshopId (i : Instance) : String :=
  match i.json.get "info" with
  | some (.obj info) =>
    match JsonObject.get info "workshopId" with
    | some (.str s) => s
    | _ => ""
  | _ => ""

/-- The collaborators of the main window over a world `W` (file system and
remote service), none of which is defined in `mainwindow.cpp`:
`instanceRoot` is `Config::instanceRoot`, `splicePath` is `Util::splicePath`,
`workshopIdFromLink` is `Util::workshopIdFromLink`, `displayName` is
`Instance::displayName`, `entryList w root` is `QDir(root).entryList(QDir::Dirs)`,
`dirExists w p` is `QDir(p).exists()`, `loadFrom` is `Instance::loadFrom`,
`save` is `Instance::save`, `sync` is `Util::updateFromWorkshop(inst, apply)`,
which changes the instance it is given in place, and `launchGame` is
`Instance::launch`. -/
structure Env (W : Type) where
  instanceRoot : String
  splicePath : String → String → String
  workshopIdFromLink : String → String
  displayName : Instance → String
  entryList : W → String → List String
  dirExists : W → String → Bool
  loadFrom : W → String → Option Instance
  save : W → Instance → W
  sync : W → Instance → Bool → W × Instance
  launchGame : W → Instance → W

/-- The calls recorded in the log. -/
inductive Event where
  | setEnabled (b : Bool)
  | hide
  | show
  | refresh (focusPath : String)
  | sync (inst : Instance) (apply : Bool)
  | save (inst : Instance)
  | launch (inst : Instance)
  | askLink
  | askDirName (preset : String)
  | warnExists

/-- A recorded call with the flags of the window when it was made. -/
structure Logged where
  ev : Event
  enabled : Bool
  visible : Bool

/-- An item of the list widget: its text and the `Instance*` in its data. -/
structure Item where
  text : String
  data : Nat

/-- The state of the main window. `currentRow` is the selected row of the
single-selection list widget. -/
structure MainWindow (W : Type) where
  world : W
  enabled : Bool
  visible : Bool
  instances : List Instance
  items : List Item
  currentRow : Option Nat
  log : List Logged

/-- The call is `Instance::save`. -/
def Event.isSave : Event → Bool
  | .save _ => true
  | _ => false

/-- The call is `Util::updateFromWorkshop`. -/
def Event.isSync : Event → Bool
  | .sync _ _ => true
  | _ => false

/-- The call is `MainWindow::refresh`. -/
def Event.isRefresh : Event → Bool
  | .refresh _ => true
  | _ => false

/-- The call is one of the two input dialogs. -/
def Event.isAsk : Event → Bool
  | .askLink => true
  | .askDirName _ => true
  | _ => false

/-- The call is the message box of the collision error. -/
def Event.isWarnExists : Event → Bool
  | .warnExists => true
  | _ => false

/-- The window cannot be used while the call runs: it is disabled during a
sync or a save, hidden during a launch. Other calls are not constrained. -/
def Logged.surfaceOff (l : Logged) : Bool :=
  match l.ev with
  | .sync _ _ => !l.enabled
  | .save _ => !l.enabled
  | .launch _ => !l.visible
  | _ => true

variable {W : Type}

/-- The calls logged since an earlier state. -/
def MainWindow.logSince (st1 st : MainWindow W) : List Logged :=
  st1.log.drop st.log.length

/-- Append a call to the log. -/
def MainWindow.emit (st : MainWindow W) (e : Event) : MainWindow W :=
  { st with log := st.log ++ [⟨e, st.enabled, st.visible⟩] }

/-- Qt's `QWidget::setEnabled`. -/
def MainWindow.setEnabled (st : MainWindow W) (b : Bool) : MainWindow W :=
  { st.emit (.setEnabled b) with enabled := b }

/-- Qt's `QWidget::hide`. -/
def MainWindow.hide (st : MainWindow W) : MainWindow W :=
  { st.emit .hide with visible := false }

/-- Qt's `QWidget::show`. -/
def MainWindow.show (st : MainWindow W) : MainWindow W :=
  { st.emit .show with visible := true }

/-- Every item of the list widget points to a loaded instance (no item holds
a dangling pointer). -/
def MainWindow.wf (st : MainWindow W) : Bool :=
  st.items.all fun itm => decide (itm.data < st.instances.length)

/-- Method `MainWindow::selectedInstance`: the pointer held by the first selected
item, or `nullptr`. -/
def selectedInstance (st : MainWindow W) : Option Nat :=
  match st.currentRow with
  | none => none
  | some r =>
    match st.items[r]? with
    | some itm => some itm.data
    | none => none

/-- The loop of `MainWindow::findWorkshopId` from index `k` on. -/
def findFrom (id : String) : Nat → List Instance → Option Nat
  | _, [] => none
  | k, i :: rest => if i.workshopId = id then some k else findFrom id (k + 1) rest

/-- Method `MainWindow::findWorkshopId`. -/
def findWorkshopId (st : MainWindow W) (id : String) : Option Nat :=
  if id = "" then none else findFrom id 0 st.instances

/-- The loop of `MainWindow::refresh` over the directory listing, with the
vector of instances, the items of the list widget and `selItm` (as a row). -/
def refreshLoop (env : Env W) (w : W) (selPath : String) :
    List String → List Instance → List Item → Option Nat →
    List Instance × List Item × Option Nat
  | [], insts, items, selItm => (insts, items, selItm)
  | idir :: rest, insts, items, selItm =>
    match env.loadFrom w idir with
    | none => refreshLoop env w selPath rest insts items selItm
    | some inst =>
      refreshLoop env w selPath rest (insts ++ [inst])
        (items ++ [⟨env.displayName inst, insts.length⟩])
        (if inst.path = selPath then some items.length else selItm)

/-- The local `selPath` of `MainWindow::refresh`; the outer `none` is the
dereference of a dangling item pointer. -/
def refreshSelPath (st : MainWindow W) (focusPath : String) : Option String :=
  if focusPath ≠ "" then some focusPath
  else
    match selectedInstance st with
    | none => some ""
    | some p => (st.instances[p]?).map Instance.path

/-- Method `MainWindow::refresh`. -/
def refresh (env : Env W) (st : MainWindow W) (focusPath : String) : Option (MainWindow W) :=
  let st1 := st.emit (.refresh focusPath)
  match refreshSelPath st1 focusPath with
  | none => none
  | some selPath =>
    let r := refreshLoop env st1.world selPath
      (env.entryList st1.world env.instanceRoot) [] [] none
    some { st1 with instances := r.1, items := r.2.1, currentRow := r.2.2 }

/-- The first line of `launch` and of `updateFromWorkshop`: the instance given,
or the selected one when `nullptr` is given. -/
def instanceOrSelected (st : MainWindow W) (inst : Option Nat) : Option Nat :=
  match inst with
  | some p => some p
  | none => selectedInstance st

/-- Method `MainWindow::launch`. -/
def launch (env : Env W) (st : MainWindow W) (inst : Option Nat) : Option (MainWindow W) :=
  match instanceOrSelected st inst with
  | none => some st
  | some p =>
    let st1 := st.hide
    match st1.instances[p]? with
    | none => none
    | some i =>
      let st2 := { st1.emit (.launch i) with world := env.launchGame st1.world i }
      some st2.show

/-- Method `MainWindow::updateFromWorkshop`. -/
def updateFromWorkshop (env : Env W) (st : MainWindow W) (inst : Option Nat) :
    Option (MainWindow W) :=
  match instanceOrSelected st inst with
  | none => some st
  | some p =>
    let st1 := st.setEnabled false
    match st1.instances[p]? with
    | none => none
    | some i =>
      let r := env.sync st1.world i true
      let st2 := { st1.emit (.sync i true) with
        world := r.1, instances := st1.instances.set p r.2 }
      let st3 := st2.setEnabled true
      refresh env st3 r.2.path

/-- The text that `newFromWorkshop` parses: the template with `%1` replaced
by the identifier (`QString::arg`). -/
def draftText (id : String) : String :=
  "\x7b\"info\" : \x7b \"workshopId\" : \"" ++ id ++
    "\" \x7d, \"savePath\" : \"inst:/storage/\", \"assetSources\" : [ \"inst:/mods/\" ] \x7d"

/-- The draft of `newFromWorkshop` before the sync. -/
def draftInstance (id : String) : Instance :=
  { Instance.fresh with json := documentObject (fromJson (draftText id)) }

/-- The local `id` of `MainWindow::newFromWorkshop` after the prompt. A reply
`none` is a cancelled dialog, for which `QInputDialog::getText` returns the
null string. -/
def promptedId (env : Env W) (id_ : String) (linkReply : Option String) : String :=
  if id_ = "" then env.workshopIdFromLink (linkReply.getD "") else id_

/-- The `else` branch of `MainWindow::newFromWorkshop` up to the closing
`setEnabled(true)`: the state, and the draft `ni` as it is left. -/
def createDraft (env : Env W) (st : MainWindow W) (id : String) (nameReply : Option String) :
    Option (MainWindow W × Instance) :=
  let ni := draftInstance id
  let r := env.sync st.world ni false
  let st1 := { st.emit (.sync ni false) with world := r.1 }
  let ni1 := r.2
  if env.displayName ni1 ≠ "" then
    let st2 := st1.emit (.askDirName (env.displayName ni1))
    let name := nameReply.getD ""
    if nameReply.isSome ∧ name ≠ "" then
      let path := env.splicePath env.instanceRoot name
      if env.dirExists st2.world path then
        some (st2.emit .warnExists, ni1)
      else
        let ni2 := { ni1 with path := path }
        let st3 := { st2.emit (.save ni2) with world := env.save st2.world ni2 }
        match refresh env st3 ni2.path with
        | none => none
        | some st4 => some (st4, ni2)
    else some (st2, ni1)
  else some (st1, ni1)

/-- Method `MainWindow::newFromWorkshop`. The replies are what the user answers to
the link dialog and to the directory-name dialog if they are shown. The
second component is the draft `ni` at the end, `none` if none was made. -/
def newFromWorkshop (env : Env W) (st : MainWindow W) (id_ : String)
    (linkReply nameReply : Option String) : Option (MainWindow W × Option Instance) :=
  let st0 := if id_ = "" then st.emit .askLink else st
  let id := promptedId env id_ linkReply
  if id_ = "" ∧ (linkReply.isNone ∨ id = "") then some (st0, none)
  else
    let st1 := st0.setEnabled false
    match findWorkshopId st1 id with
    | some p => (updateFromWorkshop env st1 (some p)).map fun s => (s, none)
    | none =>
      match createDraft env st1 id nameReply with
      | none => none
      | some (st2, ni) => some (st2.setEnabled true, some ni)

/-- The entries of the context menu of the list widget. -/
inductive MenuAction where
  | launch (inst : Nat)
  | update (inst : Nat)
  | openLink (id : String)
  | separator
  | newFromWorkshop
  | refresh

/-- The menu built by the `customContextMenuRequested` handler of the
constructor for the item under the pointer (`none`: no item there). -/
def contextMenu (st : MainWindow W) (item : Option Item) : Option (List MenuAction) :=
  let tail : List MenuAction := [.newFromWorkshop, .refresh]
  match item with
  | none => some tail
  | some itm =>
    match st.instances[itm.data]? with
    | none => none
    | some inst =>
      some ([.launch itm.data] ++
        (if inst.workshopId ≠ "" then [.update itm.data, .openLink inst.workshopId] else []) ++
        [.separator] ++ tail)

/-! ## The executable check of the constructor -/

/-- A directory, `QDir`, as the components of its absolute clean path, the
innermost first; `[]` is the root of the file system or drive. -/
abbrev DirPath := List String

/-- The clean path of a directory followed by relative segments; `none` when
`..` leads above the root. -/
def cleanUp : DirPath → List String → Option DirPath
  | d, [] => some d
  | d, s :: segs =>
    if s = ".." then
      match d with
      | [] => none
      | _ :: up => cleanUp up segs
    else cleanUp (s :: d) segs

/-- Qt's `QDir::cd`: the new directory if it exists, `none` (the directory is
left as it is) otherwise. -/
def qdirCd (dirExists : DirPath → Bool) (d : DirPath) (cd : List String) : Option DirPath :=
  match cleanUp d cd with
  | none => none
  | some d1 => if dirExists d1 then some d1 else none

/-- The loop `while (!d.cd(cd)) cd.append("/..")`, for at most the given number
of attempts; `none` when the loop is still running after them. -/
def walkUp (dirExists : DirPath → Bool) (d : DirPath) : Nat → List String → Option DirPath
  | 0, _ => none
  | fuel + 1, cd =>
    match qdirCd dirExists d cd with
    | some d1 => some d1
    | none => walkUp dirExists d fuel (cd ++ [".."])

/-- The directory the file dialog of the constructor is opened in, given the
directory `fi.dir()` of the configured executable. -/
def dialogDir (dirExists : DirPath → Bool) (d : DirPath) (fuel : Nat) : Option DirPath :=
  if dirExists d then some d else walkUp dirExists d fuel [".."]

/-! ## A small world to run the operations in -/

/-- The instance directories under the root, by name, with their stored
configuration. -/
structure DemoWorld where
  dirs : List (String × JsonObject)

/-- The collaborators over `DemoWorld`: a link is `id=` followed by the
identifier, the display name is the member `name`, the sync names the
instance after its collection. -/
def demoEnv : Env DemoWorld where
  instanceRoot := "/instances"
  splicePath := fun a b => a ++ "/" ++ b
  workshopIdFromLink := fun link =>
    match link.data with
    | 'i' :: 'd' :: '=' :: rest => String.mk rest
    | _ => ""
  displayName := fun i =>
    match i.json.get "name" with
    | some (.str s) => s
    | _ => ""
  entryList := fun w _ => w.dirs.map Prod.fst
  dirExists := fun w p => p == "/instances/" || w.dirs.any fun d => "/instances/" ++ d.1 == p
  loadFrom := fun w name =>
    (w.dirs.find? fun d => d.1 == name).map fun d => ⟨"/instances/" ++ name, d.2⟩
  save := fun w i => ⟨w.dirs ++ [(String.mk (i.path.data.drop 11), i.json)]⟩
  sync := fun w i _ =>
    (w, { i with json := insertMember i.json "name" (.str ("Collection " ++ i.workshopId)) })
  launchGame := fun w _ => w

/-- The configuration of an instance linked to a collection. -/
def demoConfig (id : String) : JsonObject :=
  [("info", .obj [("workshopId", .str id)])]

/-- A world with the instance directories `a` (collection 7), `b` (no
collection), `c` (collection 7 again) and a directory `junk` that does not
load. -/
def demoWorld : DemoWorld :=
  ⟨[("a", demoConfig "7"), ("b", []), ("c", demoConfig "7")]⟩

/-- The listing of `demoWorld` has one more entry than there are instances. -/
def demoEnvJunk : Env DemoWorld :=
  { demoEnv with entryList := fun w _ => "junk" :: w.dirs.map Prod.fst }

/-- The window before the first refresh. -/
def demoStart : MainWindow DemoWorld :=
  { world := demoWorld, enabled := true, visible := true,
    instances := [], items := [], currentRow := none, log := [] }

/-- The window after the first refresh: three instances, none selected. -/
def demoLoaded : MainWindow DemoWorld :=
  { world := demoWorld, enabled := true, visible := true,
    instances := [⟨"/instances/a", demoConfig "7"⟩, ⟨"/instances/b", []⟩,
      ⟨"/instances/c", demoConfig "7"⟩],
    items := [⟨"", 0⟩, ⟨"", 1⟩, ⟨"", 2⟩], currentRow := none, log := [] }

/-! # Theorems -/

/-! ## `findWorkshopId` -/

/-- The loop of `findWorkshopId` finds nothing exactly when no instance has the identifier. -/
theorem findFrom_eq_none (id : String) (l : List Instance) (k : Nat) :
    findFrom id k l = none ↔ ∀ i ∈ l, i.workshopId ≠ id := by
  induction l generalizing k with
  | nil => simp [findFrom]
  | cons a rest ih =>
    by_cases h : a.workshopId = id
    · simp [findFrom, h]
    · simp [findFrom, h, ih]

/-- The loop of `findWorkshopId` returns the index of the first instance with the identifier. -/
theorem findFrom_eq_some (id : String) (l : List Instance) (k p : Nat)
    (h : findFrom id k l = some p) :
    ∃ n inst, p = k + n ∧ l[n]? = some inst ∧ inst.workshopId = id ∧
      ∀ m, m < n → ∀ j, l[m]? = some j → j.workshopId ≠ id := by
  induction l generalizing k with
  | nil => simp [findFrom] at h
  | cons a rest ih =>
    by_cases ha : a.workshopId = id
    · simp [findFrom, ha] at h
      exact ⟨0, a, by omega, by simp, ha, by intro m hm; omega⟩
    · simp [findFrom, ha] at h
      obtain ⟨n, inst, hp, hget, hid, hmin⟩ := ih (k + 1) h
      refine ⟨n + 1, inst, by omega, by simpa using hget, hid, ?_⟩
      intro m hm j hj
      cases m with
      | zero =>
        simp at hj
        subst hj
        exact ha
      | succ m =>
        simp at hj
        exact hmin m (by omega) j hj

/-- Nothing is found when no loaded instance has the identifier. -/
theorem findWorkshopId_eq_none_of_forall (st : MainWindow W) (id : String)
    (h : ∀ i ∈ st.instances, i.workshopId ≠ id) : findWorkshopId st id = none := by
  unfold findWorkshopId
  split
  · rfl
  · exact (findFrom_eq_none id st.instances 0).2 h

/-- The earliest loaded instance with the identifier is found. -/
theorem findWorkshopId_eq_some_of_exists (st : MainWindow W) (id : String) (hid : id ≠ "")
    (hex : ∃ i ∈ st.instances, i.workshopId = id) :
    ∃ (p : Nat) (inst : Instance), findWorkshopId st id = some p ∧
      st.instances[p]? = some inst ∧ inst ∈ st.instances ∧ inst.workshopId = id ∧
      ∀ q : Nat, q < p → ∀ j : Instance, st.instances[q]? = some j → j.workshopId ≠ id := by
  cases hf : findFrom id 0 st.instances with
  | none =>
    obtain ⟨i, hi, hw⟩ := hex
    exact absurd hw ((findFrom_eq_none id st.instances 0).1 hf i hi)
  | some p =>
    obtain ⟨n, inst, hp, hget, hw, hmin⟩ := findFrom_eq_some id st.instances 0 p hf
    have hpn : p = n := by omega
    subst hpn
    exact ⟨p, inst, by simp [findWorkshopId, hid, hf], hget, List.getElem?_mem hget, hw, hmin⟩

/-- A found instance is loaded and has the identifier, which is not empty. -/
theorem findWorkshopId_some_spec (st : MainWindow W) (id : String) (p : Nat)
    (hf : findWorkshopId st id = some p) :
    id ≠ "" ∧ ∃ i : Instance, st.instances[p]? = some i ∧ i.workshopId = id := by
  unfold findWorkshopId at hf
  by_cases hid : id = ""
  · simp [hid] at hf
  · simp only [hid, if_false] at hf
    obtain ⟨n, inst, hp, hget, hw, _⟩ := findFrom_eq_some id st.instances 0 p hf
    have hpn : p = n := by omega
    subst hpn
    exact ⟨hid, inst, hget, hw⟩

/-- C4: `findWorkshopId` finds nothing for the empty identifier, whatever
instances are loaded, and nothing when no loaded instance has the identifier;
otherwise it returns the earliest loaded instance with that identifier. -/
theorem findWorkshopId_first_match (st : MainWindow W) (id : String) :
    (id = "" → findWorkshopId st id = none) ∧
    ((∀ i ∈ st.instances, i.workshopId ≠ id) → findWorkshopId st id = none) ∧
    (id ≠ "" → (∃ i ∈ st.instances, i.workshopId = id) →
      ∃ (p : Nat) (inst : Instance), findWorkshopId st id = some p ∧
        st.instances[p]? = some inst ∧ inst ∈ st.instances ∧ inst.workshopId = id ∧
        ∀ q : Nat, q < p → ∀ j : Instance, st.instances[q]? = some j → j.workshopId ≠ id) :=
  ⟨fun h => by simp [findWorkshopId, h], findWorkshopId_eq_none_of_forall st id,
    findWorkshopId_eq_some_of_exists st id⟩

/-- Witness for C4 in the demo window, where the instances at indices 0 and 2
share the identifier 7 and the one at index 1 has an empty identifier. -/
theorem findWorkshopId_first_match_witness :
    findWorkshopId demoLoaded "" = none ∧
    findWorkshopId demoLoaded "8" = none ∧
    ∃ p inst, findWorkshopId demoLoaded "7" = some p ∧ demoLoaded.instances[p]? = some inst ∧
      inst ∈ demoLoaded.instances ∧ inst.workshopId = "7" ∧
      ∀ q, q < p → ∀ j, demoLoaded.instances[q]? = some j → j.workshopId ≠ "7" :=
  ⟨(findWorkshopId_first_match demoLoaded "").1 rfl,
   (findWorkshopId_first_match demoLoaded "8").2.1 (by decide),
   (findWorkshopId_first_match demoLoaded "7").2.2 (by decide)
     ⟨⟨"/instances/a", demoConfig "7"⟩, by simp [demoLoaded], by decide⟩⟩

/-! ## `refresh` -/

/-- The loop of `refresh` appends the entries that load, in order. -/
theorem refreshLoop_instances (env : Env W) (w : W) (selPath : String) (lst : List String)
    (insts : List Instance) (items : List Item) (selItm : Option Nat) :
    (refreshLoop env w selPath lst insts items selItm).1 =
      insts ++ lst.filterMap (env.loadFrom w) := by
  induction lst generalizing insts items selItm with
  | nil => simp [refreshLoop]
  | cons idir rest ih =>
    cases h : env.loadFrom w idir with
    | none => simp [refreshLoop, h, ih]
    | some inst => simp [refreshLoop, h, ih]

/-- The loop of `refresh` keeps one item per instance, pointing to it. -/
theorem refreshLoop_items (env : Env W) (w : W) (selPath : String) (lst : List String)
    (insts : List Instance) (items : List Item) (selItm : Option Nat)
    (hlen : items.length = insts.length)
    (hitems : ∀ k : Nat, items[k]? = (insts[k]?).map fun i => Item.mk (env.displayName i) k) :
    (refreshLoop env w selPath lst insts items selItm).2.1.length =
      (refreshLoop env w selPath lst insts items selItm).1.length ∧
    ∀ k : Nat, (refreshLoop env w selPath lst insts items selItm).2.1[k]? =
      ((refreshLoop env w selPath lst insts items selItm).1[k]?).map
        fun i => Item.mk (env.displayName i) k := by
  induction lst generalizing insts items selItm with
  | nil => simpa [refreshLoop] using ⟨hlen, hitems⟩
  | cons idir rest ih =>
    cases h : env.loadFrom w idir with
    | none => simpa [refreshLoop, h] using ih insts items selItm hlen hitems
    | some inst =>
      simp only [refreshLoop, h]
      apply ih
      · simp [hlen]
      · intro k
        rcases Nat.lt_trichotomy k insts.length with hk | hk | hk
        · rw [List.getElem?_append_left (by omega), List.getElem?_append_left hk]
          exact hitems k
        · subst hk
          rw [List.getElem?_append_right (by omega), List.getElem?_append_right (by omega)]
          simp [hlen]
        · rw [List.getElem?_append_right (by omega), List.getElem?_append_right (by omega)]
          have h1 : k - items.length = (k - insts.length - 1) + 1 := by omega
          have h2 : k - insts.length = (k - insts.length - 1) + 1 := by omega
          rw [h1, h2]
          simp

/-- The row that the loop of `refresh` leaves in `selItm`: the last loaded
instance with the path, if there is one. -/
theorem refreshLoop_selItm (env : Env W) (w : W) (selPath : String) (lst : List String)
    (insts : List Instance) (items : List Item) (selItm : Option Nat)
    (hlen : items.length = insts.length)
    (hsel : ∀ r, selItm = some r ↔
      ∃ i, insts[r]? = some i ∧ i.path = selPath ∧
        ∀ q, r < q → ∀ j, insts[q]? = some j → j.path ≠ selPath) :
    ∀ r, (refreshLoop env w selPath lst insts items selItm).2.2 = some r ↔
      ∃ i, (refreshLoop env w selPath lst insts items selItm).1[r]? = some i ∧ i.path = selPath ∧
        ∀ q, r < q → ∀ j, (refreshLoop env w selPath lst insts items selItm).1[q]? = some j →
          j.path ≠ selPath := by
  induction lst generalizing insts items selItm with
  | nil => simpa [refreshLoop] using hsel
  | cons idir rest ih =>
    cases h : env.loadFrom w idir with
    | none => simpa [refreshLoop, h] using ih insts items selItm hlen hsel
    | some inst =>
      simp only [refreshLoop, h]
      apply ih
      · simp [hlen]
      · intro r
        by_cases hp : inst.path = selPath
        · simp only [hp, if_true, Option.some.injEq]
          constructor
          · intro hr
            subst hr
            refine ⟨inst, by rw [List.getElem?_append_right (by omega)]; simp [hlen], hp, ?_⟩
            intro q hq j hj
            rw [List.getElem?_append_right (by omega)] at hj
            have h1 : q - insts.length = (q - insts.length - 1) + 1 := by omega
            rw [h1] at hj
            simp at hj
          · rintro ⟨i, hi, _, hlast⟩
            by_contra hne
            rcases Nat.lt_or_gt_of_ne hne with hlt | hgt
            · have hr : insts.length < r := by omega
              rw [List.getElem?_append_right (by omega)] at hi
              have h1 : r - insts.length = (r - insts.length - 1) + 1 := by omega
              rw [h1] at hi
              simp at hi
            · have hr : r < insts.length := by omega
              exact hlast insts.length hr inst
                (by rw [List.getElem?_append_right (by omega)]; simp) hp
        · simp only [hp, if_false]
          rw [hsel r]
          constructor
          · rintro ⟨i, hi, hip, hlast⟩
            have hr : r < insts.length := by
              by_contra hge
              rw [List.getElem?_eq_none (by omega)] at hi
              cases hi
            refine ⟨i, by rw [List.getElem?_append_left hr]; exact hi, hip, ?_⟩
            intro q hq j hj
            by_cases hql : q < insts.length
            · rw [List.getElem?_append_left hql] at hj
              exact hlast q hq j hj
            · rw [List.getElem?_append_right (by omega)] at hj
              by_cases hqe : q = insts.length
              · subst hqe
                simp at hj
                subst hj
                exact hp
              · have h1 : q - insts.length = (q - insts.length - 1) + 1 := by omega
                rw [h1] at hj
                simp at hj
          · rintro ⟨i, hi, hip, hlast⟩
            have hr : r < insts.length := by
              by_contra hge
              by_cases hre : r = insts.length
              · subst hre
                rw [List.getElem?_append_right (by omega)] at hi
                simp at hi
                subst hi
                exact hp hip
              · rw [List.getElem?_append_right (by omega)] at hi
                have h1 : r - insts.length = (r - insts.length - 1) + 1 := by omega
                rw [h1] at hi
                simp at hi
            rw [List.getElem?_append_left hr] at hi
            refine ⟨i, hi, hip, ?_⟩
            intro q hq j hj
            by_cases hql : q < insts.length
            · exact hlast q hq j (by rw [List.getElem?_append_left hql]; exact hj)
            · rw [List.getElem?_eq_none (by omega)] at hj
              cases hj

/-- Among instances some of which have a path, one is the last to have it. -/
theorem exists_last_with_path (selPath : String) (l : List Instance)
    (h : ∃ i ∈ l, i.path = selPath) :
    ∃ (r : Nat) (i : Instance), l[r]? = some i ∧ i.path = selPath ∧
      ∀ q : Nat, r < q → ∀ j : Instance, l[q]? = some j → j.path ≠ selPath := by
  induction l with
  | nil => simp at h
  | cons a rest ih =>
    by_cases hr : ∃ i ∈ rest, i.path = selPath
    · obtain ⟨r, i, hi, hp, hlast⟩ := ih hr
      refine ⟨r + 1, i, by simpa using hi, hp, ?_⟩
      intro q hq j hj
      have h1 : q = (q - 1) + 1 := by omega
      rw [h1] at hj
      exact hlast (q - 1) (by omega) j (by simpa using hj)
    · have ha : a.path = selPath := by
        obtain ⟨i, hi, hp⟩ := h
        rcases List.mem_cons.1 hi with rfl | hi
        · exact hp
        · exact absurd ⟨i, hi, hp⟩ hr
      refine ⟨0, a, by simp, ha, ?_⟩
      intro q hq j hj hp
      have h1 : q = (q - 1) + 1 := by omega
      rw [h1] at hj
      exact hr ⟨j, List.getElem?_mem (by simpa using hj), hp⟩

/-- As many results as entries for which the function gives one. -/
theorem length_filterMap_eq_countP {α β : Type} (f : α → Option β) (l : List α) :
    (l.filterMap f).length = l.countP fun x => (f x).isSome := by
  induction l with
  | nil => rfl
  | cons a rest ih =>
    cases h : f a with
    | none => simp [List.filterMap_cons, h, ih]
    | some b => simp [List.filterMap_cons, h, ih]

/-- The pointer of the selected item is valid in a well-formed state. -/
theorem selectedInstance_lt (st : MainWindow W) (hwf : st.wf = true) (p : Nat)
    (h : selectedInstance st = some p) : p < st.instances.length := by
  unfold selectedInstance at h
  cases hr : st.currentRow with
  | none => simp [hr] at h
  | some r =>
    cases hi : st.items[r]? with
    | none => simp [hr, hi] at h
    | some itm =>
      simp [hr, hi] at h
      have hmem : itm ∈ st.items := List.getElem?_mem hi
      have := (List.all_eq_true.1 hwf) itm hmem
      simp at this
      omega

/-- The local `selPath` of `refresh` is defined in every well-formed state. -/
theorem refreshSelPath_isSome (st : MainWindow W) (hwf : st.wf = true) (focusPath : String) :
    ∃ selPath, refreshSelPath st focusPath = some selPath := by
  unfold refreshSelPath
  by_cases hf : focusPath = ""
  · cases hs : selectedInstance st with
    | none => exact ⟨"", by simp [hf]⟩
    | some p =>
      have hp := selectedInstance_lt st hwf p hs
      exact ⟨(st.instances[p]).path, by simp [hf, List.getElem?_eq_getElem hp]⟩
  · exact ⟨focusPath, by simp [hf]⟩

/-- What `refresh` computes, in terms of the local `selPath`. -/
theorem refresh_eq (env : Env W) (st : MainWindow W) (focusPath selPath : String)
    (h : refreshSelPath st focusPath = some selPath) :
    refresh env st focusPath = some
      { st.emit (.refresh focusPath) with
        instances := (refreshLoop env st.world selPath
          (env.entryList st.world env.instanceRoot) [] [] none).1,
        items := (refreshLoop env st.world selPath
          (env.entryList st.world env.instanceRoot) [] [] none).2.1,
        currentRow := (refreshLoop env st.world selPath
          (env.entryList st.world env.instanceRoot) [] [] none).2.2 } := by
  have h1 : refreshSelPath (st.emit (.refresh focusPath)) focusPath = some selPath := h
  simp only [refresh, h1]
  rfl

/-- The state after `refresh` is well formed and keeps world and flags. -/
theorem refresh_some (env : Env W) (st st1 : MainWindow W) (focusPath : String)
    (h : refresh env st focusPath = some st1) :
    ∃ selPath, refreshSelPath st focusPath = some selPath ∧
      st1.world = st.world ∧ st1.enabled = st.enabled ∧ st1.visible = st.visible ∧
      st1.log = st.log ++ [⟨.refresh focusPath, st.enabled, st.visible⟩] ∧
      st1.instances = (env.entryList st.world env.instanceRoot).filterMap (env.loadFrom st.world) ∧
      st1.items.length = st1.instances.length ∧
      (∀ k : Nat, st1.items[k]? = (st1.instances[k]?).map fun i => Item.mk (env.displayName i) k) ∧
      (∀ r : Nat, st1.currentRow = some r ↔
        ∃ i : Instance, st1.instances[r]? = some i ∧ i.path = selPath ∧
          ∀ q : Nat, r < q → ∀ j : Instance, st1.instances[q]? = some j → j.path ≠ selPath) := by
  cases hs : refreshSelPath st focusPath with
  | none =>
    have h1 : refreshSelPath (st.emit (.refresh focusPath)) focusPath = none := hs
    simp [refresh, h1] at h
  | some selPath =>
    rw [refresh_eq env st focusPath selPath hs] at h
    injection h with h
    subst h
    have hi := refreshLoop_items env st.world selPath
      (env.entryList st.world env.instanceRoot) [] [] none rfl (by simp)
    have hsl := refreshLoop_selItm env st.world selPath
      (env.entryList st.world env.instanceRoot) [] [] none rfl (by simp)
    refine ⟨selPath, rfl, rfl, rfl, rfl, rfl, ?_, hi.1, hi.2, hsl⟩
    simp [refreshLoop_instances]

/-- C5: after `refresh` the instances are exactly the entries of the listing
of the instance root that `Instance::loadFrom` loads, in listing order, the
entries that fail being skipped (as many records as loadable entries); they
do not depend on what was held before; and the list widget has one item per
instance, in the same order, whose data points to that instance. -/
theorem refresh_rebuilds_instances (env : Env W) (st : MainWindow W) (focusPath : String)
    (hwf : st.wf = true) :
    ∃ st1, refresh env st focusPath = some st1 ∧
      st1.instances =
        (env.entryList st.world env.instanceRoot).filterMap (env.loadFrom st.world) ∧
      st1.instances.length =
        (env.entryList st.world env.instanceRoot).countP
          (fun d => (env.loadFrom st.world d).isSome) ∧
      st1.items.length = st1.instances.length ∧
      (∀ k : Nat, st1.items[k]? =
        (st1.instances[k]?).map fun i => Item.mk (env.displayName i) k) ∧
      (∀ (other res : MainWindow W) (focus2 : String), other.world = st.world →
        refresh env other focus2 = some res →
        res.instances = st1.instances ∧ res.items = st1.items) := by
  obtain ⟨selPath, hsel⟩ := refreshSelPath_isSome st hwf focusPath
  have hr := refresh_eq env st focusPath selPath hsel
  obtain ⟨_, _, _, _, _, _, hinst, hlen, hitems, _⟩ := refresh_some env st _ focusPath hr
  refine ⟨_, hr, hinst, ?_, hlen, hitems, ?_⟩
  · rw [hinst, length_filterMap_eq_countP]
  · intro other res focus2 hw hres
    obtain ⟨_, _, _, _, _, _, hinst2, _, hitems2, _⟩ := refresh_some env other res focus2 hres
    have hi : res.instances = _ := hinst2.trans (by rw [hw, ← hinst])
    refine ⟨hi, ?_⟩
    apply List.ext_getElem?
    intro k
    rw [hitems2 k, hitems k, hi]

/-- Witness for C5: the first refresh over a listing of four entries, one of
which does not load, gives three instances and three items. -/
theorem refresh_rebuilds_instances_witness :
    demoStart.wf = true ∧
    ∃ st1, refresh demoEnvJunk demoStart "" = some st1 ∧
      st1.instances.length = 3 ∧ st1.items.length = 3 ∧
      (demoEnvJunk.entryList demoStart.world demoEnvJunk.instanceRoot).length = 4 :=
  ⟨by decide, by
    obtain ⟨st1, h, _, hn, hl, _⟩ :=
      refresh_rebuilds_instances demoEnvJunk demoStart "" (by decide)
    exact ⟨st1, h, by rw [hn]; decide, by rw [hl, hn]; decide, by decide⟩⟩

/-- C6: with `selPath` the focus path when that is not empty and otherwise
the path of the instance selected before (the empty string if none was),
`refresh` selects the row of the last freshly loaded instance whose path is
`selPath`, the item there points to that instance, and selects nothing when no
loaded instance has that path; a focus path that is not empty decides
`selPath` whatever was selected. -/
theorem refresh_selects_target (env : Env W) (st : MainWindow W) (focusPath : String)
    (hwf : st.wf = true) :
    ∃ st1 selPath, refresh env st focusPath = some st1 ∧
      refreshSelPath st focusPath = some selPath ∧
      (focusPath ≠ "" → selPath = focusPath) ∧
      (focusPath = "" → ∀ (p : Nat) (i : Instance), selectedInstance st = some p →
        st.instances[p]? = some i → selPath = i.path) ∧
      (focusPath = "" → selectedInstance st = none → selPath = "") ∧
      (∀ r : Nat, st1.currentRow = some r →
        ∃ i : Instance, selectedInstance st1 = some r ∧ st1.instances[r]? = some i ∧
          i.path = selPath) ∧
      ((∃ i ∈ st1.instances, i.path = selPath) →
        ∃ (r : Nat) (i : Instance), st1.currentRow = some r ∧ selectedInstance st1 = some r ∧
          st1.instances[r]? = some i ∧ i.path = selPath ∧
          ∀ q : Nat, r < q → ∀ j : Instance, st1.instances[q]? = some j → j.path ≠ selPath) ∧
      ((∀ i ∈ st1.instances, i.path ≠ selPath) →
        st1.currentRow = none ∧ selectedInstance st1 = none) ∧
      (focusPath = "" → selectedInstance st = none → (∀ i ∈ st1.instances, i.path ≠ "") →
        st1.currentRow = none ∧ selectedInstance st1 = none) := by
  obtain ⟨selPath, hsel⟩ := refreshSelPath_isSome st hwf focusPath
  have hr := refresh_eq env st focusPath selPath hsel
  obtain ⟨sp, hsp, _, _, _, _, _, _, hitems, hrow⟩ := refresh_some env st _ focusPath hr
  have hspe : sp = selPath := by rw [hsel] at hsp; injection hsp with h; exact h.symm
  subst hspe
  generalize hst1 : (some _ : Option (MainWindow W)) = res at hr
  cases res with
  | none => cases hst1
  | some st1 =>
  injection hst1 with hst1
  rw [hst1] at hitems hrow
  have hptr : ∀ (r : Nat) (i : Instance), st1.currentRow = some r → st1.instances[r]? = some i →
      selectedInstance st1 = some r := by
    intro r i hc hi
    have := hitems r
    rw [hi] at this
    simp [selectedInstance, hc, this]
  have hnone : (∀ i ∈ st1.instances, i.path ≠ sp) →
      st1.currentRow = none ∧ selectedInstance st1 = none := by
    intro hno
    have hc : st1.currentRow = none := by
      cases hc : st1.currentRow with
      | none => rfl
      | some r =>
        obtain ⟨i, hi, hp, _⟩ := (hrow r).1 hc
        exact absurd hp (hno i (List.getElem?_mem hi))
    exact ⟨hc, by simp [selectedInstance, hc]⟩
  refine ⟨st1, sp, hr, hsel, ?_, ?_, ?_, ?_, ?_, hnone, ?_⟩
  · intro hf
    simp [refreshSelPath, hf] at hsel
    exact hsel.symm
  · intro hf p i hs hi
    simp [refreshSelPath, hf, hs, hi] at hsel
    exact hsel.symm
  · intro hf hs
    simp [refreshSelPath, hf, hs] at hsel
    exact hsel.symm
  · intro r hc
    obtain ⟨i, hi, hp, _⟩ := (hrow r).1 hc
    exact ⟨i, hptr r i hc hi, hi, hp⟩
  · intro hex
    obtain ⟨r, i, hi, hp, hlast⟩ := exists_last_with_path sp st1.instances hex
    have hc := (hrow r).2 ⟨i, hi, hp, hlast⟩
    exact ⟨r, i, hc, hptr r i hc hi, hi, hp, hlast⟩
  · intro hf hs hne
    have : sp = "" := by
      simp [refreshSelPath, hf, hs] at hsel
      exact hsel.symm
    subst this
    exact hnone hne

/-- Witness for C6: in the demo window with the row of `c` selected, a refresh
without focus keeps `c` selected, and a refresh with focus on `b` selects `b`. -/
theorem refresh_selects_target_witness :
    ({ demoLoaded with currentRow := some 2 } : MainWindow DemoWorld).wf = true ∧
    (∃ st1, refresh demoEnv { demoLoaded with currentRow := some 2 } "" = some st1 ∧
      st1.currentRow = some 2) ∧
    (∃ st1, refresh demoEnv { demoLoaded with currentRow := some 2 } "/instances/b" = some st1 ∧
      st1.currentRow = some 1) :=
  ⟨by decide, by
    obtain ⟨st1, sp, h, _⟩ :=
      refresh_selects_target demoEnv { demoLoaded with currentRow := some 2 } "" (by decide)
    refine ⟨st1, h, ?_⟩
    have h2 : refresh demoEnv { demoLoaded with currentRow := some 2 } "" = some _ :=
      refresh_eq demoEnv _ "" "/instances/c" (by decide)
    rw [h2] at h
    injection h with h
    subst h
    decide, by
    obtain ⟨st1, sp, h, _⟩ :=
      refresh_selects_target demoEnv { demoLoaded with currentRow := some 2 } "/instances/b"
        (by decide)
    refine ⟨st1, h, ?_⟩
    have h2 : refresh demoEnv { demoLoaded with currentRow := some 2 } "/instances/b" = some _ :=
      refresh_eq demoEnv _ "/instances/b" "/instances/b" (by decide)
    rw [h2] at h
    injection h with h
    subst h
    decide⟩

/-! ## `updateFromWorkshop` -/

/-- Well-formedness depends on the items and the number of instances only. -/
theorem wf_of_items_eq (st st1 : MainWindow W) (hwf : st.wf = true)
    (hitems : st1.items = st.items) (hlen : st1.instances.length = st.instances.length) :
    st1.wf = true := by
  unfold MainWindow.wf at *
  rw [hitems, hlen]
  exact hwf

/-- In a well-formed state `refresh` dereferences no dangling pointer. -/
theorem refresh_defined (env : Env W) (st : MainWindow W) (focusPath : String)
    (hwf : st.wf = true) :
    ∃ st1, refresh env st focusPath = some st1 := by
  obtain ⟨selPath, hsel⟩ := refreshSelPath_isSome st hwf focusPath
  exact ⟨_, refresh_eq env st focusPath selPath hsel⟩

/-- The calls logged since a state are what was appended to its log. -/
theorem logSince_of_log_eq (st1 st : MainWindow W) (l : List Logged)
    (h : st1.log = st.log ++ l) : st1.logSince st = l := by
  unfold MainWindow.logSince
  rw [h, List.drop_left]

/-- The result of `updateFromWorkshop` on a loaded instance. -/
theorem updateFromWorkshop_some (env : Env W) (st : MainWindow W) (p : Nat) (i : Instance)
    (hwf : st.wf = true) (hi : st.instances[p]? = some i) :
    ∃ st1, updateFromWorkshop env st (some p) = some st1 ∧
      st1.log = st.log ++
        [⟨.setEnabled false, st.enabled, st.visible⟩, ⟨.sync i true, false, st.visible⟩,
         ⟨.setEnabled true, false, st.visible⟩,
         ⟨.refresh (env.sync st.world i true).2.path, true, st.visible⟩] ∧
      st1.world = (env.sync st.world i true).1 ∧
      st1.enabled = true ∧ st1.visible = st.visible ∧
      st1.instances = (env.entryList (env.sync st.world i true).1 env.instanceRoot).filterMap
        (env.loadFrom (env.sync st.world i true).1) := by
  have hi1 : (st.setEnabled false).instances[p]? = some i := hi
  simp only [updateFromWorkshop, instanceOrSelected, hi1]
  generalize hst3 : MainWindow.setEnabled _ true = st3
  have hwf3 : st3.wf = true := by
    apply wf_of_items_eq st st3 hwf
    · rw [← hst3]; rfl
    · rw [← hst3]; simp [MainWindow.setEnabled, MainWindow.emit]
  obtain ⟨st1, h1⟩ := refresh_defined env st3 (env.sync (st.setEnabled false).world i true).2.path hwf3
  obtain ⟨_, _, hw, he, hv, hl, hinst, _⟩ := refresh_some env st3 st1 _ h1
  refine ⟨st1, h1, ?_, ?_, ?_, ?_, ?_⟩
  · rw [hl, ← hst3]
    simp [MainWindow.setEnabled, MainWindow.emit]
  · rw [hw, ← hst3]; rfl
  · rw [he, ← hst3]; rfl
  · rw [hv, ← hst3]; rfl
  · rw [hinst, ← hst3]; rfl

/-- C7: the callers in this file hand `updateFromWorkshop` only records with a
workshop identifier (the context menu offers the action only for such an
item, `findWorkshopId` returns only such a record); on a record it runs the
sync once, on that record, with content application enabled, and then calls
`refresh` with the path of the record as the sync left it (the path of the
record itself when the sync keeps it); without a record it acts on the
selected instance and changes nothing if none is selected. -/
theorem updateFromWorkshop_contract (env : Env W) (st : MainWindow W) (hwf : st.wf = true) :
    (∀ (itm : Item) (acts : List MenuAction) (p : Nat),
      contextMenu st (some itm) = some acts → MenuAction.update p ∈ acts →
      ∃ i : Instance, st.instances[p]? = some i ∧ i.workshopId ≠ "") ∧
    (∀ (id : String) (p : Nat), findWorkshopId st id = some p →
      ∃ i : Instance, st.instances[p]? = some i ∧ i.workshopId ≠ "") ∧
    (∀ (p : Nat) (i : Instance), st.instances[p]? = some i →
      ∃ st1, updateFromWorkshop env st (some p) = some st1 ∧
        st1.logSince st =
          [⟨.setEnabled false, st.enabled, st.visible⟩, ⟨.sync i true, false, st.visible⟩,
           ⟨.setEnabled true, false, st.visible⟩,
           ⟨.refresh (env.sync st.world i true).2.path, true, st.visible⟩] ∧
        st1.world = (env.sync st.world i true).1 ∧
        ((env.sync st.world i true).2.path = i.path →
          st1.logSince st =
            [⟨.setEnabled false, st.enabled, st.visible⟩, ⟨.sync i true, false, st.visible⟩,
             ⟨.setEnabled true, false, st.visible⟩, ⟨.refresh i.path, true, st.visible⟩])) ∧
    updateFromWorkshop env st none = updateFromWorkshop env st (selectedInstance st) ∧
    (selectedInstance st = none → updateFromWorkshop env st none = some st) := by
  refine ⟨?_, ?_, ?_, ?_, ?_⟩
  · intro itm acts p hm hp
    unfold contextMenu at hm
    cases hi : st.instances[itm.data]? with
    | none => simp [hi] at hm
    | some inst =>
      simp only [hi] at hm
      injection hm with hm
      subst hm
      by_cases hw : inst.workshopId = ""
      · simp [hw] at hp
      · simp [hw] at hp
        subst hp
        exact ⟨inst, hi, hw⟩
  · intro id p hf
    obtain ⟨hid, inst, hget, hw⟩ := findWorkshopId_some_spec st id p hf
    exact ⟨inst, hget, by rw [hw]; exact hid⟩
  · intro p i hi
    obtain ⟨st1, h1, hl, hw, _⟩ := updateFromWorkshop_some env st p i hwf hi
    have hls := logSince_of_log_eq st1 st _ hl
    refine ⟨st1, h1, hls, hw, ?_⟩
    intro hp
    rw [hls, hp]
  · cases hs : selectedInstance st <;> simp [updateFromWorkshop, instanceOrSelected, hs]
  · intro hs
    simp [updateFromWorkshop, instanceOrSelected, hs]

/-- Witness for C7: updating the instance at index 0 of the demo window. -/
theorem updateFromWorkshop_contract_witness :
    demoLoaded.wf = true ∧
    ∃ st1, updateFromWorkshop demoEnv demoLoaded (some 0) = some st1 ∧
      st1.logSince demoLoaded =
        [⟨.setEnabled false, true, true⟩,
         ⟨.sync ⟨"/instances/a", demoConfig "7"⟩ true, false, true⟩,
         ⟨.setEnabled true, false, true⟩, ⟨.refresh "/instances/a", true, true⟩] :=
  ⟨by decide, by
    obtain ⟨st1, h, _, _, hl⟩ :=
      (updateFromWorkshop_contract demoEnv demoLoaded (by decide)).2.2.1 0
        ⟨"/instances/a", demoConfig "7"⟩ rfl
    exact ⟨st1, h, hl rfl⟩⟩

/-! ## `newFromWorkshop` -/

/-- When no loaded instance has the identifier, `newFromWorkshop` is the
creation branch between `setEnabled(false)` and `setEnabled(true)`. -/
theorem newFromWorkshop_create (env : Env W) (st : MainWindow W) (id_ : String)
    (linkReply nameReply : Option String)
    (hgo : id_ = "" → linkReply.isSome = true)
    (hid : promptedId env id_ linkReply ≠ "")
    (hfind : findWorkshopId st (promptedId env id_ linkReply) = none) :
    newFromWorkshop env st id_ linkReply nameReply =
      match createDraft env ((if id_ = "" then st.emit .askLink else st).setEnabled false)
        (promptedId env id_ linkReply) nameReply with
      | none => none
      | some (st2, ni) => some (st2.setEnabled true, some ni) := by
  have hcond : ¬ (id_ = "" ∧ (linkReply.isNone = true ∨ promptedId env id_ linkReply = "")) := by
    rintro ⟨h1, h2 | h2⟩
    · have := hgo h1
      cases linkReply <;> simp_all
    · exact hid h2
  have hf : findWorkshopId ((if id_ = "" then st.emit .askLink else st).setEnabled false)
      (promptedId env id_ linkReply) = none := by
    rw [← hfind]
    by_cases h : id_ = "" <;> simp [findWorkshopId, h, MainWindow.setEnabled, MainWindow.emit]
  simp only [newFromWorkshop, hcond, if_false, hf]

/-- The creation branch when the directory already exists. -/
theorem createDraft_collision (env : Env W) (s : MainWindow W) (id name : String)
    (hdn : env.displayName (env.sync s.world (draftInstance id) false).2 ≠ "")
    (hname : name ≠ "")
    (hex : env.dirExists (env.sync s.world (draftInstance id) false).1
      (env.splicePath env.instanceRoot name) = true) :
    createDraft env s id (some name) = some
      ({ s with
          world := (env.sync s.world (draftInstance id) false).1,
          log := s.log ++
            [⟨.sync (draftInstance id) false, s.enabled, s.visible⟩,
             ⟨.askDirName (env.displayName (env.sync s.world (draftInstance id) false).2),
               s.enabled, s.visible⟩,
             ⟨.warnExists, s.enabled, s.visible⟩] },
       (env.sync s.world (draftInstance id) false).2) := by
  simp [createDraft, hdn, hname, hex, MainWindow.emit]

/-- The creation branch when nothing stands in the way of the save. -/
theorem createDraft_saved (env : Env W) (s : MainWindow W) (id name : String)
    (hwf : s.wf = true)
    (hdn : env.displayName (env.sync s.world (draftInstance id) false).2 ≠ "")
    (hname : name ≠ "")
    (hex : env.dirExists (env.sync s.world (draftInstance id) false).1
      (env.splicePath env.instanceRoot name) = false) :
    ∃ s4, createDraft env s id (some name) = some
        (s4, { (env.sync s.world (draftInstance id) false).2 with
                path := env.splicePath env.instanceRoot name }) ∧
      s4.log = s.log ++
        [⟨.sync (draftInstance id) false, s.enabled, s.visible⟩,
         ⟨.askDirName (env.displayName (env.sync s.world (draftInstance id) false).2),
           s.enabled, s.visible⟩,
         ⟨.save { (env.sync s.world (draftInstance id) false).2 with
                   path := env.splicePath env.instanceRoot name }, s.enabled, s.visible⟩,
         ⟨.refresh (env.splicePath env.instanceRoot name), s.enabled, s.visible⟩] ∧
      s4.world = env.save (env.sync s.world (draftInstance id) false).1
        { (env.sync s.world (draftInstance id) false).2 with
            path := env.splicePath env.instanceRoot name } ∧
      s4.enabled = s.enabled ∧ s4.visible = s.visible := by
  have key : createDraft env s id (some name) =
      match refresh env
        { s with
          world := env.save (env.sync s.world (draftInstance id) false).1
            { (env.sync s.world (draftInstance id) false).2 with
                path := env.splicePath env.instanceRoot name },
          log := s.log ++
            [⟨.sync (draftInstance id) false, s.enabled, s.visible⟩,
             ⟨.askDirName (env.displayName (env.sync s.world (draftInstance id) false).2),
               s.enabled, s.visible⟩,
             ⟨.save { (env.sync s.world (draftInstance id) false).2 with
                       path := env.splicePath env.instanceRoot name }, s.enabled, s.visible⟩] }
        (env.splicePath env.instanceRoot name) with
      | none => none
      | some s4 => some (s4, { (env.sync s.world (draftInstance id) false).2 with
                path := env.splicePath env.instanceRoot name }) := by
    simp [createDraft, hdn, hname, hex, MainWindow.emit]
  rw [key]
  generalize hs3 : ({ s with world := _, log := _ } : MainWindow W) = s3
  have hwf3 : s3.wf = true := by
    apply wf_of_items_eq s s3 hwf
    · rw [← hs3]
    · rw [← hs3]
  obtain ⟨s4, h4⟩ := refresh_defined env s3 (env.splicePath env.instanceRoot name) hwf3
  obtain ⟨_, _, hw, he, hv, hl, _⟩ := refresh_some env s3 s4 _ h4
  refine ⟨s4, by simp only [h4], ?_, ?_, ?_, ?_⟩
  · rw [hl, ← hs3]
    simp
  · rw [hw, ← hs3]
  · rw [he, ← hs3]
  · rw [hv, ← hs3]

/-- The creation branch when the draft has no name or the user gives none. -/
theorem createDraft_unnamed (env : Env W) (s : MainWindow W) (id : String)
    (nameReply : Option String)
    (h : ¬ (env.displayName (env.sync s.world (draftInstance id) false).2 ≠ "" ∧
      ∃ name, nameReply = some name ∧ name ≠ "")) :
    createDraft env s id nameReply = some
      ({ s with
          world := (env.sync s.world (draftInstance id) false).1,
          log := s.log ++
            ([⟨.sync (draftInstance id) false, s.enabled, s.visible⟩] ++
              if env.displayName (env.sync s.world (draftInstance id) false).2 ≠ "" then
                [⟨.askDirName (env.displayName (env.sync s.world (draftInstance id) false).2),
                  s.enabled, s.visible⟩]
              else []) },
       (env.sync s.world (draftInstance id) false).2) := by
  by_cases hdn : env.displayName (env.sync s.world (draftInstance id) false).2 = ""
  · simp [createDraft, hdn, MainWindow.emit]
  · have hn : ¬ (nameReply.isSome = true ∧ nameReply.getD "" ≠ "") := by
      rintro ⟨h1, h2⟩
      cases nameReply with
      | none => simp at h1
      | some name => exact h ⟨hdn, name, rfl, by simpa using h2⟩
    simp [createDraft, hdn, hn, MainWindow.emit]

/-- The state that `updateFromWorkshop` returns for a loaded instance, given
the local `selPath` of its final `refresh`. -/
theorem updateFromWorkshop_eq (env : Env W) (st : MainWindow W) (p : Nat) (i : Instance)
    (selPath : String) (hi : st.instances[p]? = some i)
    (hsel : refreshSelPath
      { st with instances := st.instances.set p (env.sync st.world i true).2 }
      (env.sync st.world i true).2.path = some selPath) :
    ∃ st1, updateFromWorkshop env st (some p) = some st1 ∧
      st1.world = (env.sync st.world i true).1 ∧ st1.enabled = true ∧
      st1.visible = st.visible ∧
      st1.instances = (refreshLoop env (env.sync st.world i true).1 selPath
          (env.entryList (env.sync st.world i true).1 env.instanceRoot) [] [] none).1 ∧
      st1.items = (refreshLoop env (env.sync st.world i true).1 selPath
          (env.entryList (env.sync st.world i true).1 env.instanceRoot) [] [] none).2.1 ∧
      st1.currentRow = (refreshLoop env (env.sync st.world i true).1 selPath
          (env.entryList (env.sync st.world i true).1 env.instanceRoot) [] [] none).2.2 ∧
      st1.log = st.log ++
          [⟨.setEnabled false, st.enabled, st.visible⟩, ⟨.sync i true, false, st.visible⟩,
           ⟨.setEnabled true, false, st.visible⟩,
           ⟨.refresh (env.sync st.world i true).2.path, true, st.visible⟩] := by
  have hi1 : (st.setEnabled false).instances[p]? = some i := hi
  simp only [updateFromWorkshop, instanceOrSelected, hi1]
  refine ⟨_, refresh_eq env _ _ selPath ?_, rfl, rfl, rfl, rfl, rfl, rfl, ?_⟩
  · exact hsel
  · simp [MainWindow.setEnabled, MainWindow.emit]

/-- C1: when a loaded instance has the identifier that `newFromWorkshop` is
given, the call is `updateFromWorkshop` on the first such instance, the one
`findWorkshopId` returns: the same sync, the same refresh and the same
resulting window; no draft is made, nothing is saved and no dialog is shown. -/
theorem newFromWorkshop_existing_updates (env : Env W) (st : MainWindow W) (id : String)
    (linkReply nameReply : Option String)
    (hwf : st.wf = true) (hid : id ≠ "") (hex : ∃ i ∈ st.instances, i.workshopId = id) :
    ∃ (p : Nat) (i : Instance) (st1 st2 : MainWindow W),
      findWorkshopId st id = some p ∧ st.instances[p]? = some i ∧ i.workshopId = id ∧
      (∀ q : Nat, q < p → ∀ j : Instance, st.instances[q]? = some j → j.workshopId ≠ id) ∧
      newFromWorkshop env st id linkReply nameReply = some (st1, none) ∧
      updateFromWorkshop env st (findWorkshopId st id) = some st2 ∧
      st2.logSince st =
        [⟨.setEnabled false, st.enabled, st.visible⟩, ⟨.sync i true, false, st.visible⟩,
         ⟨.setEnabled true, false, st.visible⟩,
         ⟨.refresh (env.sync st.world i true).2.path, true, st.visible⟩] ∧
      st1.logSince st =
        [⟨.setEnabled false, st.enabled, st.visible⟩,
         ⟨.setEnabled false, false, st.visible⟩, ⟨.sync i true, false, st.visible⟩,
         ⟨.setEnabled true, false, st.visible⟩,
         ⟨.refresh (env.sync st.world i true).2.path, true, st.visible⟩] ∧
      st1.world = st2.world ∧ st1.instances = st2.instances ∧ st1.items = st2.items ∧
      st1.currentRow = st2.currentRow ∧ st1.enabled = st2.enabled ∧
      st1.visible = st2.visible ∧
      (st1.logSince st).any (fun l => l.ev.isSave || l.ev.isAsk) = false := by
  obtain ⟨p, i, hf, hi, _, hw, hmin⟩ := findWorkshopId_eq_some_of_exists st id hid hex
  have hwf2 : ({ st with instances := st.instances.set p (env.sync st.world i true).2 } :
      MainWindow W).wf = true :=
    wf_of_items_eq st _ hwf rfl (by simp)
  obtain ⟨selPath, hsel⟩ := refreshSelPath_isSome _ hwf2 (env.sync st.world i true).2.path
  obtain ⟨st2, h2, w2, e2, v2, i2, t2, c2, l2⟩ := updateFromWorkshop_eq env st p i selPath hi hsel
  obtain ⟨st1, h1, w1, e1, v1, i1, t1, c1, l1⟩ :=
    updateFromWorkshop_eq env (st.setEnabled false) p i selPath hi hsel
  have hf1 : findWorkshopId (st.setEnabled false) id = some p := hf
  have hn : newFromWorkshop env st id linkReply nameReply =
      (updateFromWorkshop env (st.setEnabled false) (some p)).map fun s => (s, none) := by
    simp [newFromWorkshop, hid, promptedId, hf1]
  rw [h1] at hn
  have hl1 : st1.logSince st =
      [⟨.setEnabled false, st.enabled, st.visible⟩,
       ⟨.setEnabled false, false, st.visible⟩, ⟨.sync i true, false, st.visible⟩,
       ⟨.setEnabled true, false, st.visible⟩,
       ⟨.refresh (env.sync st.world i true).2.path, true, st.visible⟩] :=
    logSince_of_log_eq _ st _ (by rw [l1]; simp [MainWindow.setEnabled, MainWindow.emit])
  refine ⟨p, i, st1, st2, hf, hi, hw, hmin, hn, by rw [hf]; exact h2,
    logSince_of_log_eq _ st _ l2, hl1, w1.trans w2.symm, i1.trans i2.symm, t1.trans t2.symm,
    c1.trans c2.symm, e1.trans e2.symm, v1.trans v2.symm, ?_⟩
  rw [hl1]
  simp [Event.isSave, Event.isAsk]

/-- Witness for C1: collection 7 in the demo window, where the instances at
indices 0 and 2 both have it; the instance at index 0 is updated. -/
theorem newFromWorkshop_existing_updates_witness :
    demoLoaded.wf = true ∧ (∃ i ∈ demoLoaded.instances, i.workshopId = "7") ∧
    ∃ (st1 : MainWindow DemoWorld),
      newFromWorkshop demoEnv demoLoaded "7" none (some "x") = some (st1, none) ∧
      findWorkshopId demoLoaded "7" = some 0 ∧
      st1.instances.length = 3 :=
  ⟨by decide, ⟨⟨"/instances/a", demoConfig "7"⟩, by simp [demoLoaded], by decide⟩, by
    obtain ⟨p, i, st1, st2, hf, _, _, _, hn, _⟩ :=
      newFromWorkshop_existing_updates demoEnv demoLoaded "7" none (some "x") (by decide)
        (by decide) ⟨⟨"/instances/a", demoConfig "7"⟩, by simp [demoLoaded], by decide⟩
    refine ⟨st1, hn, by decide, ?_⟩
    have h : newFromWorkshop demoEnv demoLoaded "7" none (some "x") = some (_, none) := rfl
    rw [h] at hn
    injection hn with hn
    injection hn with hn
    subst hn
    decide⟩

/-- C2 as stated fails for the empty directory name: the user confirms it, a
directory exists at the spliced path (the instance root itself), and the call
ends without the collision error. -/
theorem newFromWorkshop_empty_name_counterexample :
    findWorkshopId demoLoaded "9" = none ∧
    demoEnv.displayName (demoEnv.sync demoLoaded.world (draftInstance "9") false).2 ≠ "" ∧
    demoEnv.dirExists (demoEnv.sync demoLoaded.world (draftInstance "9") false).1
      (demoEnv.splicePath demoEnv.instanceRoot "") = true ∧
    ∃ st1 ni, newFromWorkshop demoEnv demoLoaded "9" none (some "") = some (st1, ni) ∧
      (st1.logSince demoLoaded).any (fun l => l.ev.isWarnExists) = false :=
  ⟨by decide, by decide, by decide, _, _, rfl, by decide⟩

/-- The creation branch of `newFromWorkshop` when the directory exists. -/
theorem newFromWorkshop_collision_stops (env : Env W) (st : MainWindow W) (id_ : String)
    (linkReply : Option String) (name : String)
    (hgo : id_ = "" → linkReply.isSome = true)
    (hid : promptedId env id_ linkReply ≠ "")
    (hfind : ∀ i ∈ st.instances, i.workshopId ≠ promptedId env id_ linkReply)
    (hdn : env.displayName
      (env.sync st.world (draftInstance (promptedId env id_ linkReply)) false).2 ≠ "")
    (hname : name ≠ "")
    (hex : env.dirExists
      (env.sync st.world (draftInstance (promptedId env id_ linkReply)) false).1
      (env.splicePath env.instanceRoot name) = true) :
    ∃ st1, newFromWorkshop env st id_ linkReply (some name) =
        some (st1,
          some (env.sync st.world (draftInstance (promptedId env id_ linkReply)) false).2) ∧
      st1.logSince st =
        (if id_ = "" then [⟨.askLink, st.enabled, st.visible⟩] else []) ++
        [⟨.setEnabled false, st.enabled, st.visible⟩,
         ⟨.sync (draftInstance (promptedId env id_ linkReply)) false, false, st.visible⟩,
         ⟨.askDirName (env.displayName
            (env.sync st.world (draftInstance (promptedId env id_ linkReply)) false).2),
            false, st.visible⟩,
         ⟨.warnExists, false, st.visible⟩,
         ⟨.setEnabled true, false, st.visible⟩] ∧
      (st1.logSince st).any (fun l => l.ev.isSave || l.ev.isRefresh) = false ∧
      (st1.logSince st).any (fun l => l.ev.isWarnExists) = true ∧
      st1.instances = st.instances ∧ st1.items = st.items ∧
      st1.currentRow = st.currentRow ∧
      st1.world = (env.sync st.world (draftInstance (promptedId env id_ linkReply)) false).1 ∧
      (draftInstance (promptedId env id_ linkReply)).path = "" := by
  have hcreate := newFromWorkshop_create env st id_ linkReply (some name) hgo hid
    (findWorkshopId_eq_none_of_forall st _ hfind)
  have hw0 : ((if id_ = "" then st.emit .askLink else st).setEnabled false).world = st.world := by
    split <;> rfl
  have hcol := createDraft_collision env
    ((if id_ = "" then st.emit .askLink else st).setEnabled false)
    (promptedId env id_ linkReply) name (by rw [hw0]; exact hdn) hname (by rw [hw0]; exact hex)
  rw [hcol] at hcreate
  simp only [hw0] at hcreate
  have hlog : ∀ st1 : MainWindow W, some (st1,
      some (env.sync st.world (draftInstance (promptedId env id_ linkReply)) false).2) =
      newFromWorkshop env st id_ linkReply (some name) →
      st1.logSince st =
        (if id_ = "" then [⟨.askLink, st.enabled, st.visible⟩] else []) ++
        [⟨.setEnabled false, st.enabled, st.visible⟩,
         ⟨.sync (draftInstance (promptedId env id_ linkReply)) false, false, st.visible⟩,
         ⟨.askDirName (env.displayName
            (env.sync st.world (draftInstance (promptedId env id_ linkReply)) false).2),
            false, st.visible⟩,
         ⟨.warnExists, false, st.visible⟩,
         ⟨.setEnabled true, false, st.visible⟩] := by
    intro st1 h
    rw [hcreate] at h
    injection h with h
    injection h with h
    subst h
    apply logSince_of_log_eq
    by_cases h0 : id_ = "" <;> simp [h0, MainWindow.setEnabled, MainWindow.emit]
  refine ⟨_, hcreate, hlog _ hcreate.symm, ?_, ?_, ?_, ?_, ?_, ?_, rfl⟩
  · rw [hlog _ hcreate.symm]
    by_cases h0 : id_ = "" <;> simp [h0, Event.isSave, Event.isRefresh]
  · rw [hlog _ hcreate.symm]
    by_cases h0 : id_ = "" <;> simp [h0, Event.isWarnExists]
  · by_cases h0 : id_ = "" <;> simp [h0, MainWindow.setEnabled, MainWindow.emit]
  · by_cases h0 : id_ = "" <;> simp [h0, MainWindow.setEnabled, MainWindow.emit]
  · by_cases h0 : id_ = "" <;> simp [h0, MainWindow.setEnabled, MainWindow.emit]
  · simp [MainWindow.setEnabled, MainWindow.emit]

/-- C2, amended: for a directory name that is not empty, if a directory
exists at `splicePath(instanceRoot, name)` when `newFromWorkshop` checks, the
call shows the collision error and ends: `Instance::save` and `refresh` are
not called, the draft is left as the sync returned it (no path is assigned),
the instances, the items and the selection are those from before the call. -/
theorem newFromWorkshop_collision_aborts (env : Env W) (st : MainWindow W) (id_ : String)
    (linkReply : Option String) (name : String)
    (hgo : id_ = "" → linkReply.isSome = true)
    (hid : promptedId env id_ linkReply ≠ "")
    (hfind : ∀ i ∈ st.instances, i.workshopId ≠ promptedId env id_ linkReply)
    (hdn : env.displayName
      (env.sync st.world (draftInstance (promptedId env id_ linkReply)) false).2 ≠ "")
    (hname : name ≠ "")
    (hex : env.dirExists
      (env.sync st.world (draftInstance (promptedId env id_ linkReply)) false).1
      (env.splicePath env.instanceRoot name) = true) :
    ∃ st1, newFromWorkshop env st id_ linkReply (some name) =
        some (st1,
          some (env.sync st.world (draftInstance (promptedId env id_ linkReply)) false).2) ∧
      st1.logSince st =
        (if id_ = "" then [⟨.askLink, st.enabled, st.visible⟩] else []) ++
        [⟨.setEnabled false, st.enabled, st.visible⟩,
         ⟨.sync (draftInstance (promptedId env id_ linkReply)) false, false, st.visible⟩,
         ⟨.askDirName (env.displayName
            (env.sync st.world (draftInstance (promptedId env id_ linkReply)) false).2),
            false, st.visible⟩,
         ⟨.warnExists, false, st.visible⟩,
         ⟨.setEnabled true, false, st.visible⟩] ∧
      (st1.logSince st).any (fun l => l.ev.isSave || l.ev.isRefresh) = false ∧
      (st1.logSince st).any (fun l => l.ev.isWarnExists) = true ∧
      st1.instances = st.instances ∧ st1.items = st.items ∧
      st1.currentRow = st.currentRow ∧
      st1.world = (env.sync st.world (draftInstance (promptedId env id_ linkReply)) false).1 ∧
      (draftInstance (promptedId env id_ linkReply)).path = "" :=
  newFromWorkshop_collision_stops env st id_ linkReply name hgo hid hfind hdn hname hex

/-- Witness for C2: collection 9 and the directory name `a`, which exists. -/
theorem newFromWorkshop_collision_aborts_witness :
    (∀ i ∈ demoLoaded.instances, i.workshopId ≠ promptedId demoEnv "9" none) ∧
    demoEnv.dirExists (demoEnv.sync demoLoaded.world (draftInstance "9") false).1
      (demoEnv.splicePath demoEnv.instanceRoot "a") = true ∧
    ∃ st1 ni, newFromWorkshop demoEnv demoLoaded "9" none (some "a") = some (st1, some ni) ∧
      st1.instances = demoLoaded.instances ∧
      (st1.logSince demoLoaded).any (fun l => l.ev.isWarnExists) = true :=
  ⟨by decide, by decide, by
    obtain ⟨st1, h, _, _, hw, hi, _⟩ :=
      newFromWorkshop_collision_aborts demoEnv demoLoaded "9" none "a" (by decide) (by decide)
        (by decide) (by decide) (by decide) (by decide)
    exact ⟨st1, _, h, hi, hw⟩⟩

/-- The state of `newFromWorkshop` after `setEnabled(false)` is well formed. -/
theorem askLink_state_wf (st : MainWindow W) (id_ : String) (hwf : st.wf = true) :
    ((if id_ = "" then st.emit .askLink else st).setEnabled false).wf = true :=
  wf_of_items_eq st _ hwf (by split <;> rfl) (by split <;> rfl)

/-- The cases of `newFromWorkshop`: it saves a new instance exactly on the
path where all guards of the creation branch pass. -/
theorem newFromWorkshop_persists_cases (env : Env W) (st : MainWindow W) (id_ : String)
    (linkReply nameReply : Option String)
    (hwf : st.wf = true) (hlink : env.workshopIdFromLink "" = "") :
    ∃ st1 ni, newFromWorkshop env st id_ linkReply nameReply = some (st1, ni) ∧
      ((st1.logSince st).any (fun l => l.ev.isSave) = true ↔
        (promptedId env id_ linkReply ≠ "" ∧
         (∀ i ∈ st.instances, i.workshopId ≠ promptedId env id_ linkReply) ∧
         env.displayName
           (env.sync st.world (draftInstance (promptedId env id_ linkReply)) false).2 ≠ "" ∧
         ∃ name, nameReply = some name ∧ name ≠ "" ∧
           env.dirExists
             (env.sync st.world (draftInstance (promptedId env id_ linkReply)) false).1
             (env.splicePath env.instanceRoot name) = false)) ∧
      ((st1.logSince st).any (fun l => l.ev.isSave) = true →
        ∃ name, nameReply = some name ∧
          ni = some { (env.sync st.world
              (draftInstance (promptedId env id_ linkReply)) false).2 with
            path := env.splicePath env.instanceRoot name } ∧
          (st1.logSince st).countP (fun l => l.ev.isSave) = 1 ∧
          st1.logSince st =
            (if id_ = "" then [⟨.askLink, st.enabled, st.visible⟩] else []) ++
            [⟨.setEnabled false, st.enabled, st.visible⟩,
             ⟨.sync (draftInstance (promptedId env id_ linkReply)) false, false, st.visible⟩,
             ⟨.askDirName (env.displayName (env.sync st.world
                (draftInstance (promptedId env id_ linkReply)) false).2), false, st.visible⟩,
             ⟨.save { (env.sync st.world
                  (draftInstance (promptedId env id_ linkReply)) false).2 with
                path := env.splicePath env.instanceRoot name }, false, st.visible⟩,
             ⟨.refresh (env.splicePath env.instanceRoot name), false, st.visible⟩,
             ⟨.setEnabled true, false, st.visible⟩] ∧
          st1.world = env.save
            (env.sync st.world (draftInstance (promptedId env id_ linkReply)) false).1
            { (env.sync st.world (draftInstance (promptedId env id_ linkReply)) false).2 with
              path := env.splicePath env.instanceRoot name }) := by
  have hw0 : ((if id_ = "" then st.emit .askLink else st).setEnabled false).world = st.world := by
    split <;> rfl
  have hl0 : ((if id_ = "" then st.emit .askLink else st).setEnabled false).log =
      st.log ++ ((if id_ = "" then [⟨.askLink, st.enabled, st.visible⟩] else []) ++
        [⟨.setEnabled false, st.enabled, st.visible⟩]) := by
    by_cases h0 : id_ = "" <;> simp [h0, MainWindow.setEnabled, MainWindow.emit]
  have he0 : ((if id_ = "" then st.emit .askLink else st).setEnabled false).enabled = false := rfl
  have hv0 : ((if id_ = "" then st.emit .askLink else st).setEnabled false).visible =
      st.visible := by
    split <;> rfl
  have hi0 : ((if id_ = "" then st.emit .askLink else st).setEnabled false).instances =
      st.instances := by
    split <;> rfl
  by_cases hstop : id_ = "" ∧ (linkReply.isNone = true ∨ promptedId env id_ linkReply = "")
  · -- the prompt is cancelled or gives no identifier
    have hidE : promptedId env id_ linkReply = "" := by
      rcases hstop with ⟨h0, h1 | h1⟩
      · cases linkReply with
        | none => simp [promptedId, h0, hlink]
        | some l => simp at h1
      · exact h1
    have hres : newFromWorkshop env st id_ linkReply nameReply =
        some (st.emit .askLink, none) := by
      unfold newFromWorkshop
      simp only [if_pos hstop, if_pos hstop.1]
    have hlog : (st.emit Event.askLink).logSince st = [⟨.askLink, st.enabled, st.visible⟩] :=
      logSince_of_log_eq _ st _ rfl
    have hno : ¬ ((st.emit Event.askLink).logSince st).any (fun l => l.ev.isSave) = true := by
      rw [hlog]; simp [Event.isSave]
    refine ⟨_, _, hres, ⟨fun h => absurd h hno, fun h => absurd hidE h.1⟩, fun h => absurd h hno⟩
  · have hgo : id_ = "" → linkReply.isSome = true := by
      intro h0
      cases linkReply with
      | none => exact absurd ⟨h0, Or.inl rfl⟩ hstop
      | some l => rfl
    have hid : promptedId env id_ linkReply ≠ "" := by
      intro h
      by_cases h0 : id_ = ""
      · exact hstop ⟨h0, Or.inr h⟩
      · simp [promptedId, h0] at h
    cases hf : findWorkshopId st (promptedId env id_ linkReply) with
    | some p =>
      -- an instance with the identifier is loaded: the update path
      obtain ⟨_, i, hi, hwid⟩ := findWorkshopId_some_spec st _ p hf
      have hf1 : findWorkshopId ((if id_ = "" then st.emit .askLink else st).setEnabled false)
          (promptedId env id_ linkReply) = some p := by
        rw [← hf]
        by_cases h : id_ = "" <;> simp [findWorkshopId, h, MainWindow.setEnabled, MainWindow.emit]
      obtain ⟨st1, h1, hl1, _⟩ := updateFromWorkshop_some env
        ((if id_ = "" then st.emit .askLink else st).setEnabled false) p i
        (askLink_state_wf st id_ hwf) (by rw [hi0]; exact hi)
      have hres : newFromWorkshop env st id_ linkReply nameReply = some (st1, none) := by
        simp only [newFromWorkshop, hstop, if_false, hf1, h1, Option.map_some']
      rw [hl0, List.append_assoc] at hl1
      have hlog := logSince_of_log_eq st1 st _ hl1
      have hno : ¬ (st1.logSince st).any (fun l => l.ev.isSave) = true := by
        rw [hlog]
        by_cases h0 : id_ = "" <;> simp [h0, Event.isSave]
      refine ⟨_, _, hres, ⟨fun h => absurd h hno, fun h => ?_⟩, fun h => absurd h hno⟩
      exact absurd hwid (h.2.1 i (List.getElem?_mem hi))
    | none =>
      have hall : ∀ i ∈ st.instances, i.workshopId ≠ promptedId env id_ linkReply := by
        unfold findWorkshopId at hf
        simp only [hid, if_false] at hf
        exact (findFrom_eq_none _ _ 0).1 hf
      have hcreate := newFromWorkshop_create env st id_ linkReply nameReply hgo hid hf
      by_cases hnamed : env.displayName
          (env.sync st.world (draftInstance (promptedId env id_ linkReply)) false).2 ≠ "" ∧
          ∃ name, nameReply = some name ∧ name ≠ ""
      · obtain ⟨hdn, name, hnr, hname⟩ := hnamed
        subst hnr
        cases hex : env.dirExists
            (env.sync st.world (draftInstance (promptedId env id_ linkReply)) false).1
            (env.splicePath env.instanceRoot name) with
        | true =>
          -- the directory exists
          obtain ⟨st1, h1, hl1, hns, _⟩ := newFromWorkshop_collision_stops env st id_ linkReply
            name hgo hid hall hdn hname hex
          have hno : ¬ (st1.logSince st).any (fun l => l.ev.isSave) = true := by
            intro h
            have : (st1.logSince st).any (fun l => l.ev.isSave || l.ev.isRefresh) = true := by
              rw [List.any_eq_true] at h ⊢
              obtain ⟨l, hl, hs⟩ := h
              exact ⟨l, hl, by simp [hs]⟩
            rw [hns] at this
            cases this
          refine ⟨_, _, h1, ⟨fun h => absurd h hno, fun h => ?_⟩, fun h => absurd h hno⟩
          obtain ⟨_, _, _, n2, hn2, _, hex2⟩ := h
          injection hn2 with hn2
          subst hn2
          rw [hex] at hex2
          cases hex2
        | false =>
          -- the instance is created
          obtain ⟨s4, h4, hl4, hw4, he4, hv4⟩ := createDraft_saved env
            ((if id_ = "" then st.emit .askLink else st).setEnabled false)
            (promptedId env id_ linkReply) name (askLink_state_wf st id_ hwf)
            (by rw [hw0]; exact hdn) hname (by rw [hw0]; exact hex)
          rw [h4] at hcreate
          simp only [hw0] at hcreate hl4 hw4
          rw [hl0, he0, hv0] at hl4
          have hlog : (s4.setEnabled true).logSince st =
            (if id_ = "" then [⟨.askLink, st.enabled, st.visible⟩] else []) ++
            [⟨.setEnabled false, st.enabled, st.visible⟩,
             ⟨.sync (draftInstance (promptedId env id_ linkReply)) false, false, st.visible⟩,
             ⟨.askDirName (env.displayName (env.sync st.world
                (draftInstance (promptedId env id_ linkReply)) false).2), false, st.visible⟩,
             ⟨.save { (env.sync st.world
                  (draftInstance (promptedId env id_ linkReply)) false).2 with
                path := env.splicePath env.instanceRoot name }, false, st.visible⟩,
             ⟨.refresh (env.splicePath env.instanceRoot name), false, st.visible⟩,
             ⟨.setEnabled true, false, st.visible⟩] := by
            apply logSince_of_log_eq
            have hse : (s4.setEnabled true).log =
                s4.log ++ [⟨.setEnabled true, s4.enabled, s4.visible⟩] := rfl
            rw [hse, hl4, he4, hv4, he0, hv0]
            simp
          have hyes : ((s4.setEnabled true).logSince st).any (fun l => l.ev.isSave) = true := by
            rw [hlog]
            by_cases h0 : id_ = "" <;> simp [h0, Event.isSave]
          have hone : ((s4.setEnabled true).logSince st).countP (fun l => l.ev.isSave) = 1 := by
            rw [hlog]
            by_cases h0 : id_ = "" <;> simp [h0, Event.isSave, List.countP_cons]
          refine ⟨_, _, hcreate, ⟨fun _ => ⟨hid, hall, hdn, name, rfl, hname, hex⟩,
            fun _ => hyes⟩, fun _ => ⟨name, rfl, rfl, hone, hlog, ?_⟩⟩
          exact hw4
      · -- no display name, or no directory name
        have hun := createDraft_unnamed env
          ((if id_ = "" then st.emit .askLink else st).setEnabled false)
          (promptedId env id_ linkReply) nameReply (by rw [hw0]; exact hnamed)
        rw [hun] at hcreate
        simp only [hw0, hl0, he0, hv0] at hcreate
        have hno : ∀ st1 : MainWindow W, ∀ ni : Option Instance, some (st1, ni) =
            newFromWorkshop env st id_ linkReply nameReply →
            ¬ (st1.logSince st).any (fun l => l.ev.isSave) = true := by
          intro st1 ni h
          rw [hcreate] at h
          injection h with h
          injection h with h h2
          subst h
          rw [logSince_of_log_eq _ st
            ((if id_ = "" then [⟨.askLink, st.enabled, st.visible⟩] else []) ++
              [⟨.setEnabled false, st.enabled, st.visible⟩] ++
              ([⟨.sync (draftInstance (promptedId env id_ linkReply)) false, false, st.visible⟩] ++
              if env.displayName (env.sync st.world
                  (draftInstance (promptedId env id_ linkReply)) false).2 ≠ "" then
                [⟨.askDirName (env.displayName (env.sync st.world
                  (draftInstance (promptedId env id_ linkReply)) false).2), false, st.visible⟩]
              else []) ++ [⟨.setEnabled true, false, st.visible⟩])
            (by simp [MainWindow.setEnabled, MainWindow.emit])]
          by_cases h0 : id_ = "" <;>
            by_cases h1 : env.displayName (env.sync st.world
                (draftInstance (promptedId env id_ linkReply)) false).2 = "" <;>
            simp [h0, h1, Event.isSave]
        refine ⟨_, _, hcreate, ⟨fun h => absurd h (hno _ _ hcreate.symm), fun h => ?_⟩,
          fun h => absurd h (hno _ _ hcreate.symm)⟩
        obtain ⟨_, _, hdn, name, hnr, hname, _⟩ := h
        exact absurd ⟨hdn, name, hnr, hname⟩ hnamed

/-- C3: with `id` the identifier that `newFromWorkshop` works on, the one it is
given or, when that is empty, the one `Util::workshopIdFromLink` takes from
the link the user enters, the call saves a new instance exactly when `id` is
not empty, no loaded instance has it, the draft has a display name after the
metadata-only sync, the user confirms a directory name that is not empty,
and no directory exists at `splicePath(instanceRoot, name)`; then the draft
gets exactly that path, is saved once, and `refresh` is called next with that
path as focus. -/
theorem newFromWorkshop_persists_iff (env : Env W) (st : MainWindow W) (id_ id : String)
    (linkReply nameReply : Option String)
    (hwf : st.wf = true) (hlink : env.workshopIdFromLink "" = "")
    (hidv : id = if id_ = "" then env.workshopIdFromLink (linkReply.getD "") else id_) :
    ∃ st1 ni, newFromWorkshop env st id_ linkReply nameReply = some (st1, ni) ∧
      ((st1.logSince st).any (fun l => l.ev.isSave) = true ↔
        (id ≠ "" ∧ (∀ i ∈ st.instances, i.workshopId ≠ id) ∧
         env.displayName (env.sync st.world (draftInstance id) false).2 ≠ "" ∧
         ∃ name, nameReply = some name ∧ name ≠ "" ∧
           env.dirExists (env.sync st.world (draftInstance id) false).1
             (env.splicePath env.instanceRoot name) = false)) ∧
      ((st1.logSince st).any (fun l => l.ev.isSave) = true →
        ∃ name, nameReply = some name ∧
          ni = some { (env.sync st.world (draftInstance id) false).2 with
            path := env.splicePath env.instanceRoot name } ∧
          (st1.logSince st).countP (fun l => l.ev.isSave) = 1 ∧
          st1.logSince st =
            (if id_ = "" then [⟨.askLink, st.enabled, st.visible⟩] else []) ++
            [⟨.setEnabled false, st.enabled, st.visible⟩,
             ⟨.sync (draftInstance id) false, false, st.visible⟩,
             ⟨.askDirName (env.displayName (env.sync st.world (draftInstance id) false).2),
               false, st.visible⟩,
             ⟨.save { (env.sync st.world (draftInstance id) false).2 with
                path := env.splicePath env.instanceRoot name }, false, st.visible⟩,
             ⟨.refresh (env.splicePath env.instanceRoot name), false, st.visible⟩,
             ⟨.setEnabled true, false, st.visible⟩] ∧
          st1.world = env.save (env.sync st.world (draftInstance id) false).1
            { (env.sync st.world (draftInstance id) false).2 with
              path := env.splicePath env.instanceRoot name }) := by
  subst hidv
  exact newFromWorkshop_persists_cases env st id_ linkReply nameReply hwf hlink

/-- Witness for C3: collection 9 under the new directory name `x`, once with
the identifier given and once with the identifier taken from the link `id=9`
that the user enters; and a cancelled link dialog, after which nothing is
saved. -/
theorem newFromWorkshop_persists_iff_witness :
    demoLoaded.wf = true ∧ demoEnv.workshopIdFromLink "" = "" ∧
    (∃ st1 ni, newFromWorkshop demoEnv demoLoaded "9" none (some "x") = some (st1, ni) ∧
      (st1.logSince demoLoaded).any (fun l => l.ev.isSave) = true ∧
      (st1.logSince demoLoaded).countP (fun l => l.ev.isSave) = 1 ∧
      ∃ i, ni = some i ∧ i.path = "/instances/x" ∧ i.workshopId = "9") ∧
    (∃ st1 ni, newFromWorkshop demoEnv demoLoaded "" (some "id=9") (some "x") =
        some (st1, ni) ∧
      (st1.logSince demoLoaded).any (fun l => l.ev.isSave) = true ∧
      (st1.logSince demoLoaded).countP (fun l => l.ev.isSave) = 1 ∧
      ∃ i, ni = some i ∧ i.path = "/instances/x" ∧ i.workshopId = "9") ∧
    (∃ st1 ni, newFromWorkshop demoEnv demoLoaded "" none (some "x") = some (st1, ni) ∧
      (st1.logSince demoLoaded).any (fun l => l.ev.isSave) = false) :=
  ⟨by decide, by decide, by
    obtain ⟨st1, ni, h, hiff, himp⟩ :=
      newFromWorkshop_persists_iff demoEnv demoLoaded "9" "9" none (some "x") (by decide)
        (by decide) (by decide)
    have hs := hiff.2 ⟨by decide, by decide, by decide, "x", rfl, by decide, by decide⟩
    obtain ⟨name, hn, hni, hone, _⟩ := himp hs
    injection hn with hn
    subst hn
    exact ⟨st1, ni, h, hs, hone, _, hni, rfl, by decide⟩, by
    obtain ⟨st1, ni, h, hiff, himp⟩ :=
      newFromWorkshop_persists_iff demoEnv demoLoaded "" "9" (some "id=9") (some "x")
        (by decide) (by decide) (by decide)
    have hs := hiff.2 ⟨by decide, by decide, by decide, "x", rfl, by decide, by decide⟩
    obtain ⟨name, hn, hni, hone, _⟩ := himp hs
    injection hn with hn
    subst hn
    exact ⟨st1, ni, h, hs, hone, _, hni, rfl, by decide⟩, by
    obtain ⟨st1, ni, h, hiff, _⟩ :=
      newFromWorkshop_persists_iff demoEnv demoLoaded "" "" none (some "x")
        (by decide) (by decide) (by decide)
    refine ⟨st1, ni, h, ?_⟩
    cases hb : (st1.logSince demoLoaded).any (fun l => l.ev.isSave) with
    | false => rfl
    | true => exact absurd rfl (hiff.1 hb).1⟩

/-! ## Enabled and visible flags -/

/-- The pointer an operation works on: the argument, or the selection. -/
theorem resolve_lt (st : MainWindow W) (hwf : st.wf = true) (inst : Option Nat)
    (hinst : ∀ p, inst = some p → p < st.instances.length) (p : Nat)
    (h : instanceOrSelected st inst = some p) :
    p < st.instances.length := by
  cases inst with
  | some q =>
    simp [instanceOrSelected] at h
    subst h
    exact hinst q rfl
  | none => exact selectedInstance_lt st hwf p h

/-- The creation branch, run with the window disabled, leaves it disabled and
logs only calls made while it is disabled; the first of them is the sync of
the draft without content, and there is no other sync. -/
theorem createDraft_log (env : Env W) (s : MainWindow W) (id : String)
    (nameReply : Option String) (hwf : s.wf = true) (hen : s.enabled = false) :
    ∃ s2 ni mid, createDraft env s id nameReply = some (s2, ni) ∧
      s2.enabled = false ∧ s2.visible = s.visible ∧
      s2.log = s.log ++ (⟨.sync (draftInstance id) false, false, s.visible⟩ :: mid) ∧
      (∀ l ∈ mid, l.surfaceOff = true) ∧ (∀ l ∈ mid, l.ev.isSync = false) := by
  by_cases hnamed : env.displayName (env.sync s.world (draftInstance id) false).2 ≠ "" ∧
      ∃ name, nameReply = some name ∧ name ≠ ""
  · obtain ⟨hdn, name, hnr, hname⟩ := hnamed
    subst hnr
    cases hex : env.dirExists (env.sync s.world (draftInstance id) false).1
        (env.splicePath env.instanceRoot name) with
    | true =>
      refine ⟨_, _, _, createDraft_collision env s id name hdn hname hex, hen, rfl,
        by rw [hen], ?_, ?_⟩
      · intro l hl
        simp at hl
        rcases hl with rfl | rfl <;> simp [Logged.surfaceOff]
      · intro l hl
        simp at hl
        rcases hl with rfl | rfl <;> simp [Event.isSync]
    | false =>
      obtain ⟨s4, h4, hl4, _, he4, hv4⟩ := createDraft_saved env s id name hwf hdn hname hex
      refine ⟨s4, _, _, h4, he4.trans hen, hv4, by rw [hl4, hen], ?_, ?_⟩
      · intro l hl
        simp at hl
        rcases hl with rfl | rfl | rfl <;> simp [Logged.surfaceOff]
      · intro l hl
        simp at hl
        rcases hl with rfl | rfl | rfl <;> simp [Event.isSync]
  · by_cases hdn : env.displayName (env.sync s.world (draftInstance id) false).2 = ""
    · refine ⟨_, _, [], createDraft_unnamed env s id nameReply hnamed, hen, rfl,
        by simp [hdn, hen], ?_, ?_⟩ <;> simp
    · refine ⟨_, _, [⟨.askDirName (env.displayName
          (env.sync s.world (draftInstance id) false).2), false, s.visible⟩],
        createDraft_unnamed env s id nameReply hnamed, hen, rfl, by simp [hdn, hen], ?_, ?_⟩
      · simp [Logged.surfaceOff]
      · simp [Event.isSync]

/-- C8 as stated fails for `refresh`: started with the window enabled and
visible, the reload runs with the window enabled and visible. -/
theorem refresh_runs_enabled_counterexample :
    demoStart.enabled = true ∧ demoStart.visible = true ∧
    ∃ st1, refresh demoEnv demoStart "" = some st1 ∧
      (st1.logSince demoStart).any (fun l => l.ev.isRefresh && l.enabled && l.visible) = true :=
  ⟨rfl, rfl, _, rfl, by decide⟩

/-- C8, amended: each of `refresh`, `launch`, `updateFromWorkshop` and
`newFromWorkshop`, started with the window enabled and visible, returns with
the window enabled and visible on every path; every sync and every save it
makes runs while the window is disabled, every launch while it is hidden. -/
theorem operations_restore_surface (env : Env W) (st : MainWindow W)
    (hwf : st.wf = true) (hen : st.enabled = true) (hvis : st.visible = true) :
    (∀ focusPath : String, ∃ st1, refresh env st focusPath = some st1 ∧
      st1.enabled = true ∧ st1.visible = true ∧
      (st1.logSince st).all Logged.surfaceOff = true) ∧
    (∀ inst : Option Nat, (∀ p, inst = some p → p < st.instances.length) →
      ∃ st1, launch env st inst = some st1 ∧
        st1.enabled = true ∧ st1.visible = true ∧
        (st1.logSince st).all Logged.surfaceOff = true) ∧
    (∀ inst : Option Nat, (∀ p, inst = some p → p < st.instances.length) →
      ∃ st1, updateFromWorkshop env st inst = some st1 ∧
        st1.enabled = true ∧ st1.visible = true ∧
        (st1.logSince st).all Logged.surfaceOff = true) ∧
    (∀ (id_ : String) (linkReply nameReply : Option String),
      ∃ st1 ni, newFromWorkshop env st id_ linkReply nameReply = some (st1, ni) ∧
        st1.enabled = true ∧ st1.visible = true ∧
        (st1.logSince st).all Logged.surfaceOff = true) := by
  refine ⟨?_, ?_, ?_, ?_⟩
  · intro focusPath
    obtain ⟨st1, h1⟩ := refresh_defined env st focusPath hwf
    obtain ⟨_, _, _, he, hv, hl, _⟩ := refresh_some env st st1 focusPath h1
    refine ⟨st1, h1, he.trans hen, hv.trans hvis, ?_⟩
    rw [logSince_of_log_eq st1 st _ hl]
    simp [Logged.surfaceOff]
  · intro inst hinst
    cases hr : instanceOrSelected st inst with
    | none =>
      refine ⟨st, by simp only [launch, hr], hen, hvis, ?_⟩
      simp [MainWindow.logSince]
    | some p =>
      have hp := resolve_lt st hwf inst hinst p hr
      have hi : st.hide.instances[p]? = some st.instances[p] := List.getElem?_eq_getElem hp
      refine ⟨({ st.hide.emit (.launch st.instances[p]) with
          world := env.launchGame st.hide.world st.instances[p] } : MainWindow W).show,
        by simp only [launch, hr, hi], hen, rfl, ?_⟩
      rw [logSince_of_log_eq _ st
        [⟨.hide, st.enabled, st.visible⟩, ⟨.launch st.instances[p], st.enabled, false⟩,
         ⟨.show, st.enabled, false⟩]
        (by simp [MainWindow.show, MainWindow.hide, MainWindow.emit])]
      simp [Logged.surfaceOff]
  · intro inst hinst
    cases hr : instanceOrSelected st inst with
    | none =>
      refine ⟨st, by simp only [updateFromWorkshop, hr], hen, hvis, ?_⟩
      simp [MainWindow.logSince]
    | some p =>
      have hp := resolve_lt st hwf inst hinst p hr
      obtain ⟨st1, h1, hl, _, he, hv, _⟩ := updateFromWorkshop_some env st p st.instances[p] hwf
        (List.getElem?_eq_getElem hp)
      have h3 : instanceOrSelected st (some p) = some p := rfl
      have h2 : updateFromWorkshop env st inst = updateFromWorkshop env st (some p) := by
        simp only [updateFromWorkshop, hr, h3]
      refine ⟨st1, h2.trans h1, he, hv.trans hvis, ?_⟩
      rw [logSince_of_log_eq st1 st _ hl]
      simp [Logged.surfaceOff]
  · intro id_ linkReply nameReply
    have hl0 : ((if id_ = "" then st.emit .askLink else st).setEnabled false).log =
        st.log ++ ((if id_ = "" then [⟨.askLink, st.enabled, st.visible⟩] else []) ++
          [⟨.setEnabled false, st.enabled, st.visible⟩]) := by
      by_cases h0 : id_ = "" <;> simp [h0, MainWindow.setEnabled, MainWindow.emit]
    have hv0 : ((if id_ = "" then st.emit .askLink else st).setEnabled false).visible =
        st.visible := by
      split <;> rfl
    have hi0 : ((if id_ = "" then st.emit .askLink else st).setEnabled false).instances =
        st.instances := by
      split <;> rfl
    by_cases hstop : id_ = "" ∧ (linkReply.isNone = true ∨ promptedId env id_ linkReply = "")
    · refine ⟨st.emit .askLink, none, ?_, hen, hvis, ?_⟩
      · unfold newFromWorkshop
        simp only [if_pos hstop, if_pos hstop.1]
      · rw [logSince_of_log_eq _ st [⟨.askLink, st.enabled, st.visible⟩] rfl]
        simp [Logged.surfaceOff]
    · cases hf : findWorkshopId ((if id_ = "" then st.emit .askLink else st).setEnabled false)
          (promptedId env id_ linkReply) with
      | some p =>
        obtain ⟨_, i, hi, _⟩ := findWorkshopId_some_spec _ _ p hf
        obtain ⟨st1, h1, hl1, _, he, hv, _⟩ := updateFromWorkshop_some env
          ((if id_ = "" then st.emit .askLink else st).setEnabled false) p i
          (askLink_state_wf st id_ hwf) hi
        refine ⟨st1, none, ?_, he, (hv.trans hv0).trans hvis, ?_⟩
        · simp only [newFromWorkshop, hstop, if_false, hf, h1, Option.map_some']
        · rw [hl0, List.append_assoc] at hl1
          rw [logSince_of_log_eq st1 st _ hl1]
          by_cases h0 : id_ = "" <;> simp [h0, Logged.surfaceOff]
      | none =>
        obtain ⟨s2, ni, mid, hc, he2, hv2, hl2, hmid, _⟩ := createDraft_log env
          ((if id_ = "" then st.emit .askLink else st).setEnabled false)
          (promptedId env id_ linkReply) nameReply (askLink_state_wf st id_ hwf) rfl
        refine ⟨s2.setEnabled true, some ni, ?_, rfl, (hv2.trans hv0).trans hvis, ?_⟩
        · simp only [newFromWorkshop, hstop, if_false, hf, hc]
        · have hlog : (s2.setEnabled true).log = st.log ++
              (((if id_ = "" then [⟨.askLink, st.enabled, st.visible⟩] else []) ++
                [⟨.setEnabled false, st.enabled, st.visible⟩]) ++
                (⟨.sync (draftInstance (promptedId env id_ linkReply)) false, false,
                  ((if id_ = "" then st.emit .askLink else st).setEnabled false).visible⟩ ::
                  mid) ++
                [⟨.setEnabled true, s2.enabled, s2.visible⟩]) := by
            have hse : (s2.setEnabled true).log =
                s2.log ++ [⟨.setEnabled true, s2.enabled, s2.visible⟩] := rfl
            rw [hse, hl2, hl0]
            simp
          rw [logSince_of_log_eq _ st _ hlog]
          simp only [List.all_append, Bool.and_eq_true]
          refine ⟨⟨?_, ?_⟩, by simp [Logged.surfaceOff]⟩
          swap
          · simp only [List.all_cons, Bool.and_eq_true]
            exact ⟨by simp [Logged.surfaceOff], List.all_eq_true.2 hmid⟩
          by_cases h0 : id_ = "" <;> simp [h0, Logged.surfaceOff]

/-- Witness for C8: the four operations in the demo window. -/
theorem operations_restore_surface_witness :
    demoLoaded.wf = true ∧ demoLoaded.enabled = true ∧ demoLoaded.visible = true ∧
    (∃ st1, launch demoEnv demoLoaded (some 1) = some st1 ∧ st1.enabled = true ∧
      st1.visible = true ∧ (st1.logSince demoLoaded).all Logged.surfaceOff = true) ∧
    (∃ st1 ni, newFromWorkshop demoEnv demoLoaded "9" none (some "x") = some (st1, ni) ∧
      st1.enabled = true ∧ st1.visible = true ∧
      (st1.logSince demoLoaded).all Logged.surfaceOff = true) :=
  ⟨by decide, rfl, rfl,
    (operations_restore_surface demoEnv demoLoaded (by decide) rfl rfl).2.1 (some 1)
      (by intro p hp; injection hp with hp; subst hp; decide),
    (operations_restore_surface demoEnv demoLoaded (by decide) rfl rfl).2.2.2 "9" none
      (some "x")⟩

/-! ## The draft of `newFromWorkshop` -/

/-- Going up `k` times removes the `k` innermost components, if there are that many. -/
theorem cleanUp_replicate (d : DirPath) (k : Nat) :
    cleanUp d (List.replicate k "..") = if k ≤ d.length then some (d.drop k) else none := by
  induction k generalizing d with
  | zero => simp [cleanUp]
  | succ k ih =>
    cases d with
    | nil => simp [List.replicate_succ, cleanUp]
    | cons a up => simp [List.replicate_succ, cleanUp, ih up]

/-- Going up `k` times succeeds when that ancestor is below the root and exists. -/
theorem qdirCd_replicate (dirExists : DirPath → Bool) (d : DirPath) (k : Nat) :
    qdirCd dirExists d (List.replicate k "..") =
      if k ≤ d.length ∧ dirExists (d.drop k) = true then some (d.drop k) else none := by
  unfold qdirCd
  rw [cleanUp_replicate]
  by_cases hk : k ≤ d.length
  · by_cases he : dirExists (d.drop k) = true <;> simp [hk, he]
  · simp [hk]

/-- When neither the root nor any directory on the way to it exists, the loop
is still running after any number of attempts. -/
theorem walkUp_none_of_no_ancestor (dirExists : DirPath → Bool) (d : DirPath)
    (h : ∀ j, j ≤ d.length → dirExists (d.drop j) = false) (fuel k : Nat) :
    walkUp dirExists d fuel (List.replicate k "..") = none := by
  induction fuel generalizing k with
  | zero => rfl
  | succ fuel ih =>
    have hcd : qdirCd dirExists d (List.replicate k "..") = none := by
      rw [qdirCd_replicate]
      by_cases hk : k ≤ d.length
      · simp [h k hk]
      · simp [hk]
    simp only [walkUp, hcd]
    rw [← List.replicate_succ']
    exact ih (k + 1)

/-- When an ancestor exists, the loop ends at the nearest one that does. -/
theorem walkUp_reaches_nearest (dirExists : DirPath → Bool) (d : DirPath) (k : Nat)
    (hk : k ≤ d.length) (hex : dirExists (d.drop k) = true) (n : Nat) :
    ∀ j fuel, j + n = k → n + 1 ≤ fuel →
      (∀ i, j ≤ i → i < k → dirExists (d.drop i) = false) →
      walkUp dirExists d fuel (List.replicate j "..") = some (d.drop k) := by
  induction n with
  | zero =>
    intro j fuel hj hfuel _
    have hjk : j = k := by omega
    subst hjk
    obtain ⟨f, rfl⟩ : ∃ f, fuel = f + 1 := ⟨fuel - 1, by omega⟩
    simp [walkUp, qdirCd_replicate, hk, hex]
  | succ n ih =>
    intro j fuel hj hfuel hmin
    obtain ⟨f, rfl⟩ : ∃ f, fuel = f + 1 := ⟨fuel - 1, by omega⟩
    have hcd : qdirCd dirExists d (List.replicate j "..") = none := by
      rw [qdirCd_replicate]
      simp [hmin j (Nat.le_refl j) (by omega)]
    simp only [walkUp, hcd]
    rw [← List.replicate_succ']
    exact ih (j + 1) f (by omega) (by omega) (fun i hi hik => hmin i (by omega) hik)

/-- With an existing root the constructor finds the directory for the file
dialog: the directory of the executable or its nearest existing ancestor. -/
theorem dialogDir_of_root_exists (dirExists : DirPath → Bool) (d : DirPath)
    (hroot : dirExists [] = true) :
    ∃ k, k ≤ d.length ∧ dirExists (d.drop k) = true ∧
      (∀ j, j < k → dirExists (d.drop j) = false) ∧
      ∀ fuel, d.length ≤ fuel → dialogDir dirExists d fuel = some (d.drop k) := by
  have hexi : ∃ k, dirExists (d.drop k) = true := ⟨d.length, by simpa using hroot⟩
  have hle : Nat.find hexi ≤ d.length := Nat.find_min' hexi (by simpa using hroot)
  have hmin : ∀ j, j < Nat.find hexi → dirExists (d.drop j) = false := by
    intro j hj
    have := Nat.find_min hexi hj
    simpa using this
  refine ⟨Nat.find hexi, hle, Nat.find_spec hexi, hmin, ?_⟩
  intro fuel hfuel
  unfold dialogDir
  by_cases hd : dirExists d = true
  · have h0 : Nat.find hexi = 0 := by
      by_contra hne
      have := hmin 0 (by omega)
      simp [hd] at this
    simp [hd, h0]
  · have hpos : 1 ≤ Nat.find hexi := by
      by_contra hlt
      have h0 : Nat.find hexi = 0 := by omega
      have := Nat.find_spec hexi
      rw [h0] at this
      exact hd (by simpa using this)
    simp only [hd, if_false]
    have := walkUp_reaches_nearest dirExists d (Nat.find hexi) hle (Nat.find_spec hexi)
      (Nat.find hexi - 1) 1 fuel (by omega) (by omega) (fun i _ hik => hmin i hik)
    simpa using this

/-- C10: for an executable configured under `Games` on a drive that is not
there (no directory exists, not even the root), the walk-up loop of the
constructor has not ended after any number of attempts. -/
theorem dialogDir_missing_drive_runs_forever (fuel : Nat) :
    dialogDir (fun _ => false) ["Games"] fuel = none := by
  unfold dialogDir
  simp only [Bool.false_eq_true, if_false]
  exact walkUp_none_of_no_ancestor (fun _ => false) ["Games"] (fun _ _ => rfl) fuel 1

end MultiBound
